import Mathlib

/-!
Verification of the GPU-resident object lifecycle of TinyGraphics.js.

The JavaScript classes in `src/utils.js`, `src/shaders/Shader.js` and
`examples/shadowDemoShader.js` are shallowly embedded as pure Lean
functions.  JavaScript `Map`s and plain objects used as dictionaries are
embedded as association lists (insert-or-replace keeps the JS insertion
order); object identity is tracked by explicit allocation counters; WebGL
side effects are modelled by explicit state records and call traces.
-/

namespace TinyGraphics

/-- Association-list lookup, matching `Map.get` / JS property read: the
first binding of the key wins (keys are unique by construction, as in JS). -/
def alookup {κ α : Type} [DecidableEq κ] : List (κ × α) → κ → Option α
  | [], _ => none
  | (k, v) :: rest, key => if k = key then some v else alookup rest key

/-- Association-list insert-or-replace, matching `Map.set` / JS property
assignment: an existing key keeps its position and gets the new value, a
new key is appended (JS insertion order). -/
def aset {κ α : Type} [DecidableEq κ] : List (κ × α) → κ → α → List (κ × α)
  | [], key, v => [(key, v)]
  | p :: rest, key, v => if p.1 = key then (key, v) :: rest else p :: aset rest key v

theorem alookup_aset_self {κ α : Type} [DecidableEq κ] (m : List (κ × α)) (k : κ) (v : α) :
    alookup (aset m k v) k = some v := by
  induction m with
  | nil => simp [aset, alookup]
  | cons p rest ih =>
    by_cases h : p.1 = k
    · simp [aset, alookup, h]
    · simp [aset, alookup, h, ih]

theorem alookup_aset_ne {κ α : Type} [DecidableEq κ] (m : List (κ × α)) (k k' : κ) (v : α)
    (h : k ≠ k') : alookup (aset m k v) k' = alookup m k' := by
  induction m with
  | nil => simp [aset, alookup, h]
  | cons p rest ih =>
    by_cases hp : p.1 = k
    · simp [aset, alookup, hp, h, hp ▸ h]
    · by_cases hp' : p.1 = k'
      · simp [aset, alookup, hp, hp', Ne.symm h]
      · simp [aset, alookup, hp, hp', ih]

/-- A JavaScript value as stored in a `gpu_instances` map of the base
class: either `undefined` (falsy) or an object reference identified by an
allocation id (always truthy). -/
inductive JSVal : Type
  | undef : JSVal
  | obj : Nat → JSVal
deriving DecidableEq, Repr

/-- JS truthiness of the values that can reach the base class's checks. -/
def JSVal.truthy : JSVal → Bool
  | .undef => false
  | .obj _ => true

/-- Graphics context handles are opaque map keys (identity equality). -/
abbrev Ctx := Nat

/-- The exceptions the embedded code can throw.  `excessiveUpload` stands
for the long guidance string thrown by the idiot alarm in
`GraphicsCardObject.copyOntoGraphicsCard`; `thrown msg` is a JS
`throw "msg"`; `typeError` is a host TypeError raised by passing a
non-object (e.g. `undefined`) where the WebGL API requires an object. -/
inductive JsErr : Type
  | excessiveUpload : JsErr
  | thrown : String → JsErr
  | typeError : JsErr
deriving DecidableEq, Repr

/-- Result of one base-class call: the returned value or thrown error, the
process-wide `idiot_alarm` counter afterwards, and the object's
`gpu_instances` map afterwards. -/
structure GcoResult (α : Type) where
  res : Except JsErr α
  alarm : Nat
  instances : List (Ctx × α)
deriving Repr

/-- JS truthiness of `map.get(context)`: an absent key yields `undefined`,
hence falsy; a present value is tested itself. -/
def truthyLookup {α : Type} (isTruthy : α → Bool) (m : List (Ctx × α)) (c : Ctx) : Bool :=
  match alookup m c with
  | some v => isTruthy v
  | none => false

/-- Embedding of `GraphicsCardObject.copyOntoGraphicsCard` (utils.js
lines 26-49), generic over the representation type `α` with its JS
truthiness test (`JSVal.truthy` for the base class itself, constantly
true for subclasses that pass object literals).  `existingInstance` is
`Map.get` (absent key gives `undefined`, hence falsy); on a falsy result
the program-wide counter `idiot_alarm` is post-incremented and compared
against 200 before the throw; otherwise the initial representation is
stored and returned. -/
def gcoCopyOnto {α : Type} (isTruthy : α → Bool) (alarm : Nat)
    (instances : List (Ctx × α)) (context : Ctx) (initRep : α) : GcoResult α :=
  if truthyLookup isTruthy instances context then
    { res := .ok ((alookup instances context).getD initRep), alarm, instances }
  else if alarm > 200 then
    { res := .error .excessiveUpload, alarm := alarm + 1, instances }
  else
    { res := .ok initRep, alarm := alarm + 1, instances := aset instances context initRep }

/-- Embedding of `GraphicsCardObject.activate` (utils.js lines 59-61):
`this.gpu_instances.get(context) || this.copyOntoGraphicsCard(context, ...args)`. -/
def gcoActivate {α : Type} (isTruthy : α → Bool) (alarm : Nat)
    (instances : List (Ctx × α)) (context : Ctx) (initRep : α) : GcoResult α :=
  match alookup instances context with
  | some v =>
    if isTruthy v then { res := .ok v, alarm, instances }
    else gcoCopyOnto isTruthy alarm instances context initRep
  | none => gcoCopyOnto isTruthy alarm instances context initRep

/-- A sequence of `activate` calls on one object and one context, each
with its own initial-representation argument, threading counter and map. -/
def iterActivate (alarm : Nat) (instances : List (Ctx × JSVal)) (context : Ctx) :
    List JSVal → List (Except JsErr JSVal) × Nat × List (Ctx × JSVal)
  | [] => ([], alarm, instances)
  | r :: rest =>
    let step := gcoActivate JSVal.truthy alarm instances context r
    let t := iterActivate step.alarm step.instances context rest
    (step.res :: t.1, t.2)

theorem iterActivate_cons (alarm : Nat) (m : List (Ctx × JSVal)) (c : Ctx)
    (r : JSVal) (rest : List JSVal) :
    iterActivate alarm m c (r :: rest) =
      ((gcoActivate JSVal.truthy alarm m c r).res ::
          (iterActivate (gcoActivate JSVal.truthy alarm m c r).alarm
            (gcoActivate JSVal.truthy alarm m c r).instances c rest).1,
        (iterActivate (gcoActivate JSVal.truthy alarm m c r).alarm
            (gcoActivate JSVal.truthy alarm m c r).instances c rest).2) := rfl

theorem gcoActivate_known (alarm : Nat) (m : List (Ctx × JSVal)) (c : Ctx) (v r : JSVal)
    (hv : alookup m c = some v) (ht : v.truthy = true) :
    gcoActivate JSVal.truthy alarm m c r = { res := .ok v, alarm, instances := m } := by
  simp [gcoActivate, hv, ht]

theorem iterActivate_known (m : List (Ctx × JSVal)) (c : Ctx) (v : JSVal)
    (hv : alookup m c = some v) (ht : v.truthy = true) :
    ∀ (reps : List JSVal) (alarm : Nat),
      iterActivate alarm m c reps = (reps.map (fun _ => .ok v), alarm, m) := by
  intro reps
  induction reps with
  | nil => intro alarm; simp [iterActivate]
  | cons r rest ih =>
    intro alarm
    simp [iterActivate, gcoActivate_known alarm m c v r hv ht, ih]

theorem gcoCopyOnto_fresh {α : Type} (isTruthy : α → Bool) (alarm : Nat)
    (m : List (Ctx × α)) (c : Ctx) (init : α)
    (hfresh : alookup m c = none) (halarm : alarm ≤ 200) :
    gcoCopyOnto isTruthy alarm m c init =
      { res := .ok init, alarm := alarm + 1, instances := aset m c init } := by
  simp [gcoCopyOnto, truthyLookup, hfresh, Nat.not_lt.mpr halarm]

theorem gcoCopyOnto_falsy {α : Type} (isTruthy : α → Bool) (alarm : Nat)
    (m : List (Ctx × α)) (c : Ctx) (v init : α)
    (hstored : alookup m c = some v) (hfalsy : isTruthy v = false) (halarm : alarm ≤ 200) :
    gcoCopyOnto isTruthy alarm m c init =
      { res := .ok init, alarm := alarm + 1, instances := aset m c init } := by
  simp [gcoCopyOnto, truthyLookup, hstored, hfalsy, Nat.not_lt.mpr halarm]

theorem gcoCopyOnto_trip {α : Type} (isTruthy : α → Bool) (alarm : Nat)
    (m : List (Ctx × α)) (c : Ctx) (init : α)
    (hfresh : alookup m c = none) (halarm : alarm > 200) :
    gcoCopyOnto isTruthy alarm m c init =
      { res := .error .excessiveUpload, alarm := alarm + 1, instances := m } := by
  simp [gcoCopyOnto, truthyLookup, hfresh, halarm]

theorem gcoActivate_fresh {α : Type} (isTruthy : α → Bool) (alarm : Nat)
    (m : List (Ctx × α)) (c : Ctx) (init : α) (hfresh : alookup m c = none) :
    gcoActivate isTruthy alarm m c init = gcoCopyOnto isTruthy alarm m c init := by
  simp [gcoActivate, hfresh]

theorem gcoActivate_falsy {α : Type} (isTruthy : α → Bool) (alarm : Nat)
    (m : List (Ctx × α)) (c : Ctx) (v init : α)
    (hstored : alookup m c = some v) (hfalsy : isTruthy v = false) :
    gcoActivate isTruthy alarm m c init = gcoCopyOnto isTruthy alarm m c init := by
  simp [gcoActivate, hstored, hfalsy]

theorem aset_aset_same {κ α : Type} [DecidableEq κ] (m : List (κ × α)) (k : κ) (v v' : α) :
    aset (aset m k v) k v' = aset m k v' := by
  induction m with
  | nil => simp [aset]
  | cons p rest ih =>
    by_cases h : p.1 = k
    · simp [aset, h]
    · simp [aset, h, ih]

/-- C1 (amended): provided the initial representation passed on the first
upload is truthy and the process-wide counter is at most 200 at that
moment, a sequence of `1 + rest.length` `activate` calls on an object and
a context the object has not seen performs exactly one first upload: the
counter rises by exactly one, exactly one map entry is stored, and every
call returns the very same representation value. -/
theorem activate_exactly_once_amended (alarm : Nat) (m : List (Ctx × JSVal)) (c : Ctx)
    (r : JSVal) (rest : List JSVal)
    (hfresh : alookup m c = none) (halarm : alarm ≤ 200) (htruthy : r.truthy = true) :
    iterActivate alarm m c (r :: rest) =
      ((r :: rest).map (fun _ => .ok r), alarm + 1, aset m c r) := by
  have hstep := (gcoActivate_fresh JSVal.truthy alarm m c r hfresh).trans
    (gcoCopyOnto_fresh JSVal.truthy alarm m c r hfresh halarm)
  simp only [iterActivate, hstep]
  rw [iterActivate_known (aset m c r) c r (alookup_aset_self m c r) htruthy rest (alarm + 1)]
  simp

/-- C1 amended claim instantiated concretely: one fresh truthy upload
followed by two re-activations increments the counter once and always
returns the same representation. -/
theorem activate_exactly_once_amended_witness :
    alookup ([] : List (Ctx × JSVal)) 0 = none ∧ (0 : Nat) ≤ 200 ∧
      (JSVal.obj 5).truthy = true ∧
      iterActivate 0 [] 0 [JSVal.obj 5, JSVal.undef, JSVal.obj 7] =
        ([.ok (JSVal.obj 5), .ok (JSVal.obj 5), .ok (JSVal.obj 5)], 1, [(0, JSVal.obj 5)]) :=
  ⟨rfl, by decide, rfl, by
    rw [activate_exactly_once_amended 0 [] 0 (JSVal.obj 5) [JSVal.undef, JSVal.obj 7]
      rfl (by decide) rfl]
    rfl⟩

/-- C1 counterexample: the claim as stated fails on the base class.  Two
`activate(context)` calls with the default (undefined, hence falsy)
initial representation both take the first-upload path, so the
process-wide counter rises by two, not one. -/
theorem activate_exactly_once_cex :
    (iterActivate 0 [] 0 [JSVal.undef, JSVal.undef]).2.1 = 2 ∧
      (iterActivate 0 [] 0 [JSVal.undef, JSVal.undef]).2.1 ≠ 1 := by
  constructor
  · rfl
  · intro h
    simp only [iterActivate, gcoActivate, gcoCopyOnto, alookup, aset] at h
    exact absurd h (by decide)

/-- C9 helper: starting from a map whose stored value for `c` is the falsy
`undefined`, `k + 1` further `activate` calls each take the first-upload
path, so the counter rises by `k + 1` while the entry stays `undefined`. -/
theorem iterActivate_falsy_loop (c : Ctx) :
    ∀ (k alarm : Nat) (m : List (Ctx × JSVal)),
      alookup m c = some JSVal.undef → alarm + (k + 1) ≤ 201 →
      iterActivate alarm m c (List.replicate (k + 1) JSVal.undef) =
        (List.replicate (k + 1) (.ok JSVal.undef), alarm + (k + 1), aset m c JSVal.undef) := by
  intro k
  induction k with
  | zero =>
    intro alarm m hstored halarm
    have h200 : alarm ≤ 200 := by omega
    have hstep := (gcoActivate_falsy JSVal.truthy alarm m c JSVal.undef JSVal.undef hstored
      rfl).trans (gcoCopyOnto_falsy JSVal.truthy alarm m c JSVal.undef JSVal.undef hstored
        rfl h200)
    simp [iterActivate, hstep]
  | succ k ih =>
    intro alarm m hstored halarm
    have h200 : alarm ≤ 200 := by omega
    have hstep := (gcoActivate_falsy JSVal.truthy alarm m c JSVal.undef JSVal.undef hstored
      rfl).trans (gcoCopyOnto_falsy JSVal.truthy alarm m c JSVal.undef JSVal.undef hstored
        rfl h200)
    have hrest := ih (alarm + 1) (aset m c JSVal.undef)
      (alookup_aset_self m c JSVal.undef) (by omega)
    conv_lhs => rw [List.replicate_succ]
    rw [iterActivate_cons, hstep]
    dsimp only
    rw [hrest]
    simp only [List.replicate_succ, aset_aset_same, Prod.mk.injEq]
    refine ⟨trivial, by omega, trivial⟩

/-- C9: the exactly-once guarantee rests on the stored representation
being truthy.  When the representation stored for a context is falsy
(only `undefined` can be stored falsy in this model, as happens when the
base class's `activate` is called without an initial representation),
every subsequent `activate` call takes the first-upload path again: each
of `k + 1` calls increments the process-wide counter and rewrites the map
entry (with `undefined` again), so the counter rises by `k + 1`. -/
theorem falsy_rep_reuploads (alarm k : Nat) (m : List (Ctx × JSVal)) (c : Ctx) (v : JSVal)
    (hstored : alookup m c = some v) (hfalsy : v.truthy = false)
    (halarm : alarm + (k + 1) ≤ 201) :
    iterActivate alarm m c (List.replicate (k + 1) JSVal.undef) =
      (List.replicate (k + 1) (.ok JSVal.undef), alarm + (k + 1), aset m c JSVal.undef) := by
  have hv : v = JSVal.undef := by
    cases v with
    | undef => rfl
    | obj i => simp [JSVal.truthy] at hfalsy
  exact iterActivate_falsy_loop c k alarm m (hv ▸ hstored) halarm

/-- C9 instantiated concretely: with `undefined` stored for context 0,
three more activations take the first-upload path three times. -/
theorem falsy_rep_reuploads_witness :
    alookup [((0 : Ctx), JSVal.undef)] 0 = some JSVal.undef ∧
      JSVal.undef.truthy = false ∧ (5 : Nat) + (2 + 1) ≤ 201 ∧
      iterActivate 5 [(0, JSVal.undef)] 0 (List.replicate 3 JSVal.undef) =
        (List.replicate 3 (.ok JSVal.undef), 8, [(0, JSVal.undef)]) :=
  ⟨rfl, rfl, by decide, by
    rw [falsy_rep_reuploads 5 2 [(0, JSVal.undef)] 0 JSVal.undef rfl rfl (by decide)]
    rfl⟩

theorem alookup_append {κ α : Type} [DecidableEq κ] (a b : List (κ × α)) (k : κ) :
    alookup (a ++ b) k = match alookup a k with
      | some v => some v
      | none => alookup b k := by
  induction a with
  | nil => simp [alookup]
  | cons p rest ih =>
    by_cases h : p.1 = k
    · simp [alookup, h]
    · simp [alookup, h, ih]

theorem aset_absent {κ α : Type} [DecidableEq κ] (m : List (κ × α)) (k : κ) (v : α)
    (h : alookup m k = none) : aset m k v = m ++ [(k, v)] := by
  induction m with
  | nil => simp [aset]
  | cons p rest ih =>
    by_cases hp : p.1 = k
    · simp [alookup, hp] at h
    · simp only [alookup, hp, if_false] at h
      simp [aset, hp, ih h]

/-- The `gpu_instances` map after first-uploading the contexts `0..n-1`
with representations `obj 0 .. obj (n-1)`. -/
def freshInstances (n : Nat) : List (Ctx × JSVal) :=
  (List.range n).map (fun i => (i, JSVal.obj i))

theorem alookup_freshInstances_ge (n c : Nat) (h : n ≤ c) :
    alookup (freshInstances n) c = none := by
  induction n with
  | zero => simp [freshInstances, alookup]
  | succ k ih =>
    rw [freshInstances, List.range_succ, List.map_append, alookup_append]
    rw [show ((List.range k).map (fun i => (i, JSVal.obj i))) = freshInstances k from rfl]
    rw [ih (by omega)]
    have hne : k ≠ c := by omega
    simp [alookup, hne]

theorem alookup_freshInstances_lt (n c : Nat) (h : c < n) :
    alookup (freshInstances n) c = some (JSVal.obj c) := by
  induction n with
  | zero => omega
  | succ k ih =>
    rw [freshInstances, List.range_succ, List.map_append, alookup_append]
    rw [show ((List.range k).map (fun i => (i, JSVal.obj i))) = freshInstances k from rfl]
    by_cases hc : c < k
    · rw [ih hc]
    · have hck : c = k := by omega
      rw [alookup_freshInstances_ge k c (by omega)]
      simp [alookup, hck]

/-- Does a call result record a thrown error? -/
def isErrorResult : Except JsErr JSVal → Bool
  | .error _ => true
  | .ok _ => false

/-- Construct-and-first-activate `n` distinct GPU-resident objects on
fresh contexts, starting from a process-wide counter of zero: the `i`-th
step activates context `i` with the fresh truthy representation `obj i`,
exactly the first-upload scenario of the guard-threshold claim. -/
def runFreshUploads : Nat → List (Except JsErr JSVal) × Nat × List (Ctx × JSVal)
  | 0 => ([], 0, [])
  | n + 1 =>
    let prev := runFreshUploads n
    let step := gcoActivate JSVal.truthy prev.2.1 prev.2.2 n (JSVal.obj n)
    (prev.1 ++ [step.res], step.alarm, step.instances)

theorem runFreshUploads_succ (n : Nat) :
    runFreshUploads (n + 1) =
      ((runFreshUploads n).1 ++
          [(gcoActivate JSVal.truthy (runFreshUploads n).2.1 (runFreshUploads n).2.2 n
            (JSVal.obj n)).res],
        (gcoActivate JSVal.truthy (runFreshUploads n).2.1 (runFreshUploads n).2.2 n
          (JSVal.obj n)).alarm,
        (gcoActivate JSVal.truthy (runFreshUploads n).2.1 (runFreshUploads n).2.2 n
          (JSVal.obj n)).instances) := rfl

theorem runFreshUploads_ok : ∀ n, n ≤ 201 →
    runFreshUploads n =
      ((List.range n).map (fun i => .ok (JSVal.obj i)), n, freshInstances n) := by
  intro n
  induction n with
  | zero => intro _; simp [runFreshUploads, freshInstances]
  | succ k ih =>
    intro h
    rw [runFreshUploads_succ, ih (by omega)]
    have hfresh : alookup (freshInstances k) k = none := alookup_freshInstances_ge k k le_rfl
    have hstep := (gcoActivate_fresh JSVal.truthy k (freshInstances k) k (JSVal.obj k)
      hfresh).trans (gcoCopyOnto_fresh JSVal.truthy k (freshInstances k) k (JSVal.obj k)
        hfresh (by omega))
    dsimp only
    rw [hstep, aset_absent (freshInstances k) k (JSVal.obj k) hfresh]
    simp [freshInstances, List.range_succ]

/-- Re-activate each of the contexts `0..n-1` once more, with the base
class's default (undefined) initial-representation argument. -/
def reactivateAll (alarm : Nat) (m : List (Ctx × JSVal)) :
    Nat → List (Except JsErr JSVal) × Nat × List (Ctx × JSVal)
  | 0 => ([], alarm, m)
  | n + 1 =>
    let prev := reactivateAll alarm m n
    let step := gcoActivate JSVal.truthy prev.2.1 prev.2.2 n JSVal.undef
    (prev.1 ++ [step.res], step.alarm, step.instances)

theorem reactivateAll_fresh (n' : Nat) : ∀ n, n ≤ n' → ∀ alarm,
    reactivateAll alarm (freshInstances n') n =
      ((List.range n).map (fun i => .ok (JSVal.obj i)), alarm, freshInstances n') := by
  intro n
  induction n with
  | zero => intro _ alarm; simp [reactivateAll]
  | succ k ih =>
    intro h alarm
    have hk := gcoActivate_known alarm (freshInstances n') k (JSVal.obj k) JSVal.undef
      (alookup_freshInstances_lt n' k (by omega)) rfl
    show ((reactivateAll alarm (freshInstances n') k).1 ++ _, _, _) = _
    rw [ih (by omega) alarm]
    dsimp only
    rw [hk, List.range_succ, List.map_append]
    rfl

/-- C2 counterexample: starting from a counter of zero, constructing and
first-activating 201 distinct GPU-resident objects raises nothing at all:
all 201 first-upload calls succeed and the counter ends at 201, so the
excessive-upload error is not raised on the 201st first-upload as
claimed. -/
theorem guard_threshold_cex :
    ((runFreshUploads 201).1.any isErrorResult) = false ∧
      (runFreshUploads 201).1.length = 201 ∧ (runFreshUploads 201).2.1 = 201 := by
  rw [runFreshUploads_ok 201 (by omega)]
  refine ⟨?_, by simp, rfl⟩
  simp [isErrorResult]

/-- C2 (amended): the guard fires one call later than claimed.  The first
201 first-uploads all succeed; the 202nd first-upload (pre-increment
counter 201 > 200) raises the excessive-upload error, leaving the counter
at 202; and re-activating each of 200 already-uploaded objects a second
time raises nothing and leaves the counter unchanged at 200. -/
theorem guard_threshold_amended :
    ((runFreshUploads 201).1.any isErrorResult) = false ∧
      (runFreshUploads 202).1.getLast? = some (.error .excessiveUpload) ∧
      (runFreshUploads 202).2.1 = 202 ∧
      ((reactivateAll (runFreshUploads 200).2.1 (runFreshUploads 200).2.2 200).1.any
        isErrorResult) = false ∧
      (reactivateAll (runFreshUploads 200).2.1 (runFreshUploads 200).2.2 200).2.1 = 200 := by
  have h201 := runFreshUploads_ok 201 (by omega)
  have h200 := runFreshUploads_ok 200 (by omega)
  have hfresh : alookup (freshInstances 201) 201 = none :=
    alookup_freshInstances_ge 201 201 le_rfl
  have hstep := (gcoActivate_fresh JSVal.truthy 201 (freshInstances 201) 201 (JSVal.obj 201)
    hfresh).trans (gcoCopyOnto_trip JSVal.truthy 201 (freshInstances 201) 201 (JSVal.obj 201)
      hfresh (by omega))
  have h202 : runFreshUploads 202 =
      ((runFreshUploads 201).1 ++ [.error .excessiveUpload], 202, freshInstances 201) := by
    rw [runFreshUploads_succ 201]
    rw [show (runFreshUploads 201).2.1 = 201 from by rw [h201]]
    rw [show (runFreshUploads 201).2.2 = freshInstances 201 from by rw [h201]]
    rw [hstep]
  refine ⟨?_, ?_, ?_, ?_, ?_⟩
  · rw [h201]; simp [isErrorResult]
  · rw [h202]; exact List.getLast?_concat _
  · rw [h202]
  · rw [h200]; rw [reactivateAll_fresh 200 200 le_rfl 200]; simp [isErrorResult]
  · rw [h200]; rw [reactivateAll_fresh 200 200 le_rfl 200]

/-- One process-wide first-upload attempt: which object, which context,
and the initial representation the caller passes. -/
structure UploadOp where
  target : Nat
  context : Ctx
  initRep : JSVal
deriving DecidableEq, Repr

/-- Whole-process state: the single shared `idiot_alarm` counter and every
object's `gpu_instances` map, keyed by object identity. -/
structure Proc where
  alarm : Nat
  objs : List (Nat × List (Ctx × JSVal))
deriving DecidableEq, Repr

/-- An object's `gpu_instances` map (empty when the object was just
constructed and never uploaded). -/
def Proc.mapOf (p : Proc) (o : Nat) : List (Ctx × JSVal) :=
  (alookup p.objs o).getD []

/-- Run `copyOntoGraphicsCard` on one object of the process, threading the
shared counter and writing the object's map back. -/
def procCopyOnto (p : Proc) (op : UploadOp) : Except JsErr JSVal × Proc :=
  let r := gcoCopyOnto JSVal.truthy p.alarm (p.mapOf op.target) op.context op.initRep
  (r.res, { alarm := r.alarm, objs := aset p.objs op.target r.instances })

def runProc : Proc → List UploadOp → Proc
  | p, [] => p
  | p, op :: rest => runProc (procCopyOnto p op).2 rest

/-- Whether a call would take the first-upload branch (no truthy stored
representation for that object and context). -/
def takesFirstPath (p : Proc) (op : UploadOp) : Bool :=
  !truthyLookup JSVal.truthy (p.mapOf op.target) op.context

/-- The number of per-context representations created (successful
first-upload stores) along a run. -/
def countCreated : Proc → List UploadOp → Nat
  | _, [] => 0
  | p, op :: rest =>
    (if takesFirstPath p op = true ∧ p.alarm ≤ 200 then 1 else 0) +
      countCreated (procCopyOnto p op).2 rest

/-- The number of excessive-upload errors raised along a run. -/
def countErrored : Proc → List UploadOp → Nat
  | _, [] => 0
  | p, op :: rest =>
    (if takesFirstPath p op = true ∧ 200 < p.alarm then 1 else 0) +
      countErrored (procCopyOnto p op).2 rest

theorem procCopyOnto_alarm (p : Proc) (op : UploadOp) :
    (procCopyOnto p op).2.alarm =
      if takesFirstPath p op = true then p.alarm + 1 else p.alarm := by
  unfold procCopyOnto gcoCopyOnto takesFirstPath
  cases ht : truthyLookup JSVal.truthy (p.mapOf op.target) op.context with
  | true => simp [ht]
  | false =>
    by_cases ha : p.alarm > 200
    · simp [ht, ha]
    · simp [ht, ha]

theorem gcoCopyOnto_error_inv {α : Type} (isTruthy : α → Bool) (alarm : Nat)
    (m : List (Ctx × α)) (c : Ctx) (init : α) (e : JsErr)
    (h : (gcoCopyOnto isTruthy alarm m c init).res = .error e) :
    (gcoCopyOnto isTruthy alarm m c init).instances = m ∧
      (gcoCopyOnto isTruthy alarm m c init).alarm = alarm + 1 ∧
      truthyLookup isTruthy m c = false ∧ 200 < alarm := by
  by_cases ht : truthyLookup isTruthy m c
  · simp [gcoCopyOnto, ht] at h
  · by_cases ha : 200 < alarm
    · simp [gcoCopyOnto, ht, ha]
    · simp [gcoCopyOnto, ht, ha] at h

theorem runProc_alarm : ∀ (ops : List UploadOp) (p : Proc),
    (runProc p ops).alarm = p.alarm + countCreated p ops + countErrored p ops := by
  intro ops
  induction ops with
  | nil => intro p; simp [runProc, countCreated, countErrored]
  | cons op rest ih =>
    intro p
    show (runProc (procCopyOnto p op).2 rest).alarm = _
    rw [ih]
    simp only [countCreated, countErrored, procCopyOnto_alarm]
    by_cases hf : takesFirstPath p op = true
    · by_cases ha : p.alarm ≤ 200
      · simp [hf, ha, Nat.not_lt.mpr ha] <;> omega
      · simp [hf, ha, Nat.lt_of_not_le ha] <;> omega
    · simp [hf] <;> omega

/-- C10: when `copyOntoGraphicsCard` raises the excessive-upload error,
the failing call leaves every object's per-context map unchanged (no
representation is stored for the offending context) yet has already
incremented the process-wide counter; consequently, over any whole-process
run from a zero counter that raised at least one such error, the counter
strictly exceeds the number of representations ever created. -/
theorem excessive_upload_overcounts (p : Proc) (op : UploadOp) (e : JsErr)
    (ops : List UploadOp)
    (herr : (procCopyOnto p op).1 = .error e)
    (hany : 1 ≤ countErrored { alarm := 0, objs := [] } ops) :
    (∀ o, (procCopyOnto p op).2.mapOf o = p.mapOf o) ∧
      (procCopyOnto p op).2.alarm = p.alarm + 1 ∧
      countCreated { alarm := 0, objs := [] } ops <
        (runProc { alarm := 0, objs := [] } ops).alarm := by
  have hinv := gcoCopyOnto_error_inv JSVal.truthy p.alarm (p.mapOf op.target) op.context
    op.initRep e herr
  refine ⟨?_, ?_, ?_⟩
  · intro o
    by_cases ho : op.target = o
    · subst ho
      show (alookup (aset p.objs op.target _) op.target).getD [] = _
      rw [alookup_aset_self, hinv.1]
      rfl
    · show (alookup (aset p.objs op.target _) o).getD [] = _
      rw [alookup_aset_ne p.objs op.target o _ ho]
      rfl
  · exact hinv.2.1
  · rw [runProc_alarm]
    omega

set_option maxRecDepth 40000 in
/-- C10 instantiated concretely: 202 first-upload attempts of the same
object on the same context with a falsy representation each take the
first-upload path; the 202nd raises, the counter ends at 202 while only
201 stores ever happened, and the failing call itself (from counter 201)
leaves the maps unchanged. -/
theorem excessive_upload_overcounts_witness :
    (procCopyOnto { alarm := 201, objs := [] } ⟨0, 0, JSVal.undef⟩).1 =
        .error .excessiveUpload ∧
      1 ≤ countErrored { alarm := 0, objs := [] }
          (List.replicate 202 ⟨0, 0, JSVal.undef⟩) ∧
      (∀ o, (procCopyOnto { alarm := 201, objs := [] } ⟨0, 0, JSVal.undef⟩).2.mapOf o =
        Proc.mapOf { alarm := 201, objs := [] } o) ∧
      (procCopyOnto { alarm := 201, objs := [] } ⟨0, 0, JSVal.undef⟩).2.alarm = 202 ∧
      countCreated { alarm := 0, objs := [] } (List.replicate 202 ⟨0, 0, JSVal.undef⟩) <
        (runProc { alarm := 0, objs := [] } (List.replicate 202 ⟨0, 0, JSVal.undef⟩)).alarm := by
  have h := excessive_upload_overcounts { alarm := 201, objs := [] } ⟨0, 0, JSVal.undef⟩
    .excessiveUpload (List.replicate 202 ⟨0, 0, JSVal.undef⟩) rfl (by decide)
  exact ⟨rfl, by decide, h.1, h.2.1, h.2.2⟩

/-- Embedding of `Matrix.flatten2dTo1D`: a `Float32Array` of size
`M.length && M.length * M[0].length` is allocated (zero-initialised),
then filled sequentially with the row entries; writes past the allocated
size are silently dropped and unwritten slots stay 0.  The numeric
payload is modelled by integers, since the claims under verification
concern which buffers are written, not float arithmetic. -/
def flatten2dTo1D (M : List (List Int)) : List Int :=
  let size := match M with
    | [] => 0
    | r :: _ => M.length * r.length
  let joined := M.flatten
  joined.take size ++ List.replicate (size - joined.length) 0

/-- Embedding of `new Uint32Array(this.indices)`. -/
def uint32List (indices : List Nat) : List Int :=
  indices.map (fun i => Int.ofNat (i % 4294967296))

inductive BufferTarget : Type
  | arrayBuffer
  | elementArrayBuffer
deriving DecidableEq, Repr

/-- The WebGL state of one context that the vertex-buffer code touches:
a buffer-handle allocator, the data store of each buffer, and the two
binding points. -/
structure GLState where
  nextBuf : Nat
  buffers : List (Nat × List Int)
  boundArrayBuf : Option Nat
  boundElementBuf : Option Nat
deriving DecidableEq, Repr

/-- gl.createBuffer(): allocate a fresh buffer handle with an empty data
store. -/
def GLState.createBuffer (gl : GLState) : Nat × GLState :=
  (gl.nextBuf,
    { gl with nextBuf := gl.nextBuf + 1, buffers := aset gl.buffers gl.nextBuf [] })

/-- gl.bindBuffer(target, buffer): binding `undefined`/`null` unbinds. -/
def GLState.bindBuffer (gl : GLState) (t : BufferTarget) (b : Option Nat) : GLState :=
  match t with
  | .arrayBuffer => { gl with boundArrayBuf := b }
  | .elementArrayBuffer => { gl with boundElementBuf := b }

def GLState.boundAt (gl : GLState) : BufferTarget → Option Nat
  | .arrayBuffer => gl.boundArrayBuf
  | .elementArrayBuffer => gl.boundElementBuf

/-- Effect of `bufferData` on the buffer stores: replace the store of the
bound buffer; with nothing bound this is a GL error (INVALID_OPERATION)
and no write happens, without a JS exception. -/
def storeData (buffers : List (Nat × List Int)) : Option Nat → List Int → List (Nat × List Int)
  | none, _ => buffers
  | some b, data => aset buffers b data

/-- Effect of `bufferSubData(target, 0, data)` on the buffer stores:
overwrite the bound buffer's store from offset 0; if the data overruns
the existing store this is a GL error (INVALID_VALUE) and no write
happens; with nothing bound, likewise no write. -/
def storeSubData (buffers : List (Nat × List Int)) : Option Nat → List Int → List (Nat × List Int)
  | none, _ => buffers
  | some b, data =>
    match alookup buffers b with
    | none => buffers
    | some old =>
      if data.length ≤ old.length then aset buffers b (data ++ old.drop data.length)
      else buffers

/-- gl.bufferData(target, data, STATIC_DRAW) on the buffer bound at `target`. -/
def GLState.bufferData (gl : GLState) (t : BufferTarget) (data : List Int) : GLState :=
  { gl with buffers := storeData gl.buffers (gl.boundAt t) data }

/-- gl.bufferSubData(target, 0, data) on the buffer bound at `target`. -/
def GLState.bufferSubData (gl : GLState) (t : BufferTarget) (data : List Int) : GLState :=
  { gl with buffers := storeSubData gl.buffers (gl.boundAt t) data }

/-- The `write` closure of `VertexBuffer.copyOntoGraphicsCard`:
`bufferSubData` when the context already knew the object, `bufferData`
otherwise. -/
def glWrite (didExist : Bool) (gl : GLState) (t : BufferTarget) (data : List Int) : GLState :=
  if didExist then gl.bufferSubData t data else gl.bufferData t data

/-- Per-context representation of a `VertexBuffer`: `objId` tracks the JS
identity of the `{webGL_buffer_pointers: \x7b\x7d}` literal. -/
structure VBInst where
  objId : Nat
  webGL_buffer_pointers : List (String × Nat)
  index_buffer : Option Nat
deriving DecidableEq, Repr

/-- Embedding of the `VertexBuffer` fields the upload path reads: named
per-vertex arrays (lists of short numeric tuples), the index list, and
the per-context instance map. -/
structure VertexBuffer where
  arrays : List (String × List (List Int))
  indices : List Nat
  gpu_instances : List (Ctx × VBInst)
deriving DecidableEq, Repr

/-- One iteration of `for (let name of selectionOfArrays)` in
`VertexBuffer.copyOntoGraphicsCard`: create the buffer on first upload,
bind it, flatten the named array (a missing array name makes
`flatten2dTo1D(undefined)` raise a TypeError) and write it. -/
def vbWriteOne (didExist : Bool) (arrays : List (String × List (List Int)))
    (inst : VBInst) (gl : GLState) (name : String) : Option JsErr × VBInst × GLState :=
  let created :=
    if didExist then (inst, gl)
    else
      let c := gl.createBuffer
      ({ inst with webGL_buffer_pointers := aset inst.webGL_buffer_pointers name c.1 },
        c.2)
  let inst := created.1
  let gl := (created.2).bindBuffer .arrayBuffer (alookup inst.webGL_buffer_pointers name)
  match alookup arrays name with
  | none => (some .typeError, inst, gl)
  | some arr => (none, inst, glWrite didExist gl .arrayBuffer (flatten2dTo1D arr))

def vbWriteLoop (didExist : Bool) (arrays : List (String × List (List Int))) :
    List String → VBInst → GLState → Option JsErr × VBInst × GLState
  | [], inst, gl => (none, inst, gl)
  | n :: rest, inst, gl =>
    let r := vbWriteOne didExist arrays inst gl n
    match r.1 with
    | some e => (some e, r.2.1, r.2.2)
    | none => vbWriteLoop didExist arrays rest r.2.1 r.2.2

/-- The `if (this.indices.length && writeToIndices)` block: create the
index buffer on first upload, bind it, write the 32-bit index data. -/
def vbWriteIndices (didExist : Bool) (indices : List Nat) (writeToIndices : Bool)
    (inst : VBInst) (gl : GLState) : VBInst × GLState :=
  if indices.length ≠ 0 ∧ writeToIndices = true then
    let created :=
      if didExist then (inst, gl)
      else
        let c := gl.createBuffer
        ({ inst with index_buffer := some c.1 }, c.2)
    let inst := created.1
    let gl := (created.2).bindBuffer .elementArrayBuffer inst.index_buffer
    (inst, glWrite didExist gl .elementArrayBuffer (uint32List indices))
  else (inst, gl)

/-- Result of a `VertexBuffer.copyOntoGraphicsCard` call: returned value
or thrown error, the updated object, the shared counter, the JS object
allocator, and the context's GL state. -/
structure VBResult where
  res : Except JsErr VBInst
  vb : VertexBuffer
  alarm : Nat
  nextObj : Nat
  gl : GLState
deriving Repr

/-- Embedding of `VertexBuffer.copyOntoGraphicsCard` (utils.js lines
96-124).  A fresh `{webGL_buffer_pointers: \x7b\x7d}` literal is
allocated each call; `didExist` is read before the `super` call; the
`super` call stores the blank instance on a fresh context (and can raise
the excessive-upload error); the loop writes the selected arrays and the
index block conditionally writes connectivity. -/
def vbCopyOnto (vb : VertexBuffer) (alarm nextObj : Nat) (ctx : Ctx) (gl : GLState)
    (selectionOfArrays : List String) (writeToIndices : Bool) : VBResult :=
  let initialGpuRepresentation : VBInst :=
    { objId := nextObj, webGL_buffer_pointers := [], index_buffer := none }
  let nextObj' := nextObj + 1
  let didExist := (alookup vb.gpu_instances ctx).isSome
  let s := gcoCopyOnto (fun _ => true) alarm vb.gpu_instances ctx initialGpuRepresentation
  match s.res with
  | .error e =>
    { res := .error e, vb := { vb with gpu_instances := s.instances },
      alarm := s.alarm, nextObj := nextObj', gl }
  | .ok gpuInstance =>
    let w := vbWriteLoop didExist vb.arrays selectionOfArrays gpuInstance gl
    match w.1 with
    | some e =>
      { res := .error e,
        vb := { vb with gpu_instances := aset s.instances ctx w.2.1 },
        alarm := s.alarm, nextObj := nextObj', gl := w.2.2 }
    | none =>
      let wi := vbWriteIndices didExist vb.indices writeToIndices w.2.1 w.2.2
      { res := .ok wi.1,
        vb := { vb with gpu_instances := aset s.instances ctx wi.1 },
        alarm := s.alarm, nextObj := nextObj', gl := wi.2 }

/-- Embedding of `activate(context)` as `VertexBuffer.draw` calls it: the
inherited `activate` either finds the (always truthy) stored instance or
delegates to `copyOntoGraphicsCard` with its default arguments
(`Object.keys(this.arrays)`, `true`). -/
def vbActivate (vb : VertexBuffer) (alarm nextObj : Nat) (ctx : Ctx) (gl : GLState) : VBResult :=
  match alookup vb.gpu_instances ctx with
  | some v => { res := .ok v, vb, alarm, nextObj, gl }
  | none => vbCopyOnto vb alarm nextObj ctx gl (vb.arrays.map Prod.fst) true

theorem boundAt_bindBuffer_same (gl : GLState) (t : BufferTarget) (p : Option Nat) :
    (gl.bindBuffer t p).boundAt t = p := by
  cases t <;> rfl

theorem bindBuffer_buffers (gl : GLState) (t : BufferTarget) (p : Option Nat) :
    (gl.bindBuffer t p).buffers = gl.buffers := by
  cases t <;> rfl

theorem bindBuffer_nextBuf (gl : GLState) (t : BufferTarget) (p : Option Nat) :
    (gl.bindBuffer t p).nextBuf = gl.nextBuf := by
  cases t <;> rfl

theorem bufferSubData_nextBuf (gl : GLState) (t : BufferTarget) (data : List Int) :
    (gl.bufferSubData t data).nextBuf = gl.nextBuf := rfl

theorem storeSubData_lookup_ne (buffers : List (Nat × List Int)) (p : Option Nat)
    (data : List Int) (x : Nat) (hx : p ≠ some x) :
    alookup (storeSubData buffers p data) x = alookup buffers x := by
  cases p with
  | none => rfl
  | some b =>
    have hbx : b ≠ x := fun h => hx (by rw [h])
    simp only [storeSubData]
    cases h : alookup buffers b with
    | none => simp [h]
    | some old =>
      simp only [h]
      by_cases hl : data.length ≤ old.length
      · simp [hl, alookup_aset_ne buffers b x _ hbx]
      · simp [hl]

theorem storeSubData_lookup_write (buffers : List (Nat × List Int)) (b : Nat)
    (data old : List Int) (hb : alookup buffers b = some old)
    (hlen : data.length = old.length) :
    alookup (storeSubData buffers (some b) data) b = some data := by
  simp only [storeSubData, hb, Nat.le_of_eq hlen, if_true]
  rw [hlen, List.drop_length, List.append_nil]
  exact alookup_aset_self buffers b data

theorem bindWrite_nextBuf (gl : GLState) (t : BufferTarget) (p : Option Nat)
    (data : List Int) : ((gl.bindBuffer t p).bufferSubData t data).nextBuf = gl.nextBuf := by
  rw [bufferSubData_nextBuf, bindBuffer_nextBuf]

theorem bindWrite_buffers (gl : GLState) (t : BufferTarget) (p : Option Nat)
    (data : List Int) :
    ((gl.bindBuffer t p).bufferSubData t data).buffers = storeSubData gl.buffers p data := by
  show storeSubData (gl.bindBuffer t p).buffers ((gl.bindBuffer t p).boundAt t) data = _
  rw [bindBuffer_buffers, boundAt_bindBuffer_same]

theorem bindWrite_buffers_ne (gl : GLState) (t : BufferTarget) (p : Option Nat)
    (data : List Int) (x : Nat) (hx : p ≠ some x) :
    alookup ((gl.bindBuffer t p).bufferSubData t data).buffers x = alookup gl.buffers x := by
  rw [bindWrite_buffers]
  exact storeSubData_lookup_ne gl.buffers p data x hx

theorem bindWrite_buffers_write (gl : GLState) (t : BufferTarget) (b : Nat)
    (data old : List Int) (hb : alookup gl.buffers b = some old)
    (hlen : data.length = old.length) :
    alookup ((gl.bindBuffer t (some b)).bufferSubData t data).buffers b = some data := by
  rw [bindWrite_buffers]
  exact storeSubData_lookup_write gl.buffers b data old hb hlen

theorem vbWriteOne_true_eq (arrays : List (String × List (List Int))) (inst : VBInst)
    (gl : GLState) (name : String) (arr : List (List Int))
    (harr : alookup arrays name = some arr) :
    vbWriteOne true arrays inst gl name =
      (none, inst,
        (gl.bindBuffer .arrayBuffer
          (alookup inst.webGL_buffer_pointers name)).bufferSubData .arrayBuffer
            (flatten2dTo1D arr)) := by
  simp [vbWriteOne, harr, glWrite]

/-- The re-upload loop of an already-known context: it raises nothing when
every selected name exists among the arrays, never mutates the instance
(no buffer creation), never allocates GPU buffers, and leaves every
buffer unnamed by the selection bit-identical. -/
theorem vbWriteLoop_reupload (arrays : List (String × List (List Int))) :
    ∀ (sel : List String) (inst : VBInst) (gl : GLState),
      (∀ n ∈ sel, (alookup arrays n).isSome = true) →
      (vbWriteLoop true arrays sel inst gl).1 = none ∧
      (vbWriteLoop true arrays sel inst gl).2.1 = inst ∧
      (vbWriteLoop true arrays sel inst gl).2.2.nextBuf = gl.nextBuf ∧
      (∀ b, (∀ n ∈ sel, alookup inst.webGL_buffer_pointers n ≠ some b) →
        alookup (vbWriteLoop true arrays sel inst gl).2.2.buffers b =
          alookup gl.buffers b) := by
  intro sel
  induction sel with
  | nil =>
    intro inst gl _
    exact ⟨rfl, rfl, rfl, fun b _ => rfl⟩
  | cons n rest ih =>
    intro inst gl hsel
    obtain ⟨arr, harr⟩ := Option.isSome_iff_exists.mp (hsel n (by simp))
    have hone := vbWriteOne_true_eq arrays inst gl n arr harr
    have hrest := ih inst
      ((gl.bindBuffer .arrayBuffer
        (alookup inst.webGL_buffer_pointers n)).bufferSubData .arrayBuffer
          (flatten2dTo1D arr))
      (fun n' hn' => hsel n' (by simp [hn']))
    refine ⟨?_, ?_, ?_, ?_⟩
    · show (vbWriteLoop true arrays (n :: rest) inst gl).1 = none
      simp only [vbWriteLoop, hone]
      exact hrest.1
    · simp only [vbWriteLoop, hone]
      exact hrest.2.1
    · simp only [vbWriteLoop, hone]
      rw [hrest.2.2.1, bindWrite_nextBuf]
    · intro b hb
      simp only [vbWriteLoop, hone]
      rw [hrest.2.2.2 b (fun n' hn' => hb n' (by simp [hn']))]
      exact bindWrite_buffers_ne gl .arrayBuffer _ _ b (hb n (by simp))

/-- The re-upload loop fully overwrites the buffer of each selected name,
provided the flattened data still fits the existing store exactly and no
other selected name aliases the same buffer. -/
theorem vbWriteLoop_writes (arrays : List (String × List (List Int))) :
    ∀ (sel : List String) (inst : VBInst) (gl : GLState) (n : String) (b : Nat)
      (arr : List (List Int)) (old : List Int),
      (∀ n' ∈ sel, (alookup arrays n').isSome = true) →
      sel.Nodup →
      n ∈ sel →
      alookup inst.webGL_buffer_pointers n = some b →
      alookup arrays n = some arr →
      alookup gl.buffers b = some old →
      (flatten2dTo1D arr).length = old.length →
      (∀ n', n' ∈ sel → n' ≠ n → alookup inst.webGL_buffer_pointers n' ≠ some b) →
      alookup (vbWriteLoop true arrays sel inst gl).2.2.buffers b =
        some (flatten2dTo1D arr) := by
  intro sel
  induction sel with
  | nil => intro _ _ _ _ _ _ _ _ hmem; exact absurd hmem (by simp)
  | cons n₀ rest ih =>
    intro inst gl n b arr old hsel hnodup hmem hptr harr hold hlen hinj
    obtain ⟨arr₀, harr₀⟩ := Option.isSome_iff_exists.mp (hsel n₀ (by simp))
    have hone := vbWriteOne_true_eq arrays inst gl n₀ arr₀ harr₀
    by_cases heq : n₀ = n
    · subst heq
      have harr' : arr₀ = arr := by rw [harr₀] at harr; exact Option.some.inj harr
      subst harr'
      have hnotin : n₀ ∉ rest := (List.nodup_cons.mp hnodup).1
      have hwrite := bindWrite_buffers_write gl .arrayBuffer b (flatten2dTo1D arr₀) old
        hold hlen
      rw [hptr] at hone
      simp only [vbWriteLoop, hone]
      have hframe := (vbWriteLoop_reupload arrays rest inst
        ((gl.bindBuffer .arrayBuffer (some b)).bufferSubData .arrayBuffer
          (flatten2dTo1D arr₀))
        (fun n' hn' => hsel n' (by simp [hn']))).2.2.2
      rw [hframe b ?_]
      · exact hwrite
      · intro n' hn'
        exact hinj n' (by simp [hn']) (fun hne => hnotin (hne ▸ hn'))
    · have hmem' : n ∈ rest := by
        cases List.mem_cons.mp hmem with
        | inl h => exact absurd h.symm heq
        | inr h => exact h
      have hb₀ : alookup inst.webGL_buffer_pointers n₀ ≠ some b :=
        hinj n₀ (by simp) heq
      simp only [vbWriteLoop, hone]
      exact ih inst _ n b arr old
        (fun n' hn' => hsel n' (by simp [hn']))
        (List.nodup_cons.mp hnodup).2 hmem' hptr harr
        (by rw [bindWrite_buffers_ne gl .arrayBuffer _ _ b hb₀]; exact hold) hlen
        (fun n' hn' hne => hinj n' (by simp [hn']) hne)

theorem aset_eq_of_alookup {κ α : Type} [DecidableEq κ] (m : List (κ × α)) (k : κ) (v : α)
    (h : alookup m k = some v) : aset m k v = m := by
  induction m with
  | nil => simp [alookup] at h
  | cons p rest ih =>
    by_cases hp : p.1 = k
    · have hv : p.2 = v := by
        rw [alookup, if_pos hp] at h
        exact Option.some.inj h
      simp only [aset, if_pos hp]
      rw [← hp, ← hv, Prod.mk.eta]
    · rw [alookup, if_neg hp] at h
      simp [aset, hp, ih h]

theorem gcoCopyOnto_known_subclass {α : Type} (alarm : Nat) (m : List (Ctx × α)) (c : Ctx)
    (v init : α) (hv : alookup m c = some v) :
    gcoCopyOnto (fun _ => true) alarm m c init =
      { res := .ok v, alarm := alarm, instances := m } := by
  simp [gcoCopyOnto, truthyLookup, hv]

theorem vbWriteIndices_true_fst (indices : List Nat) (wIdx : Bool) (inst : VBInst)
    (gl : GLState) : (vbWriteIndices true indices wIdx inst gl).1 = inst := by
  unfold vbWriteIndices
  split <;> rfl

theorem vbWriteIndices_true_skip (indices : List Nat) (wIdx : Bool) (inst : VBInst)
    (gl : GLState) (h : ¬(indices.length ≠ 0 ∧ wIdx = true)) :
    vbWriteIndices true indices wIdx inst gl = (inst, gl) := by
  unfold vbWriteIndices
  rw [if_neg h]

theorem vbWriteIndices_true_write (indices : List Nat) (wIdx : Bool) (inst : VBInst)
    (gl : GLState) (h : indices.length ≠ 0 ∧ wIdx = true) :
    vbWriteIndices true indices wIdx inst gl =
      (inst, (gl.bindBuffer .elementArrayBuffer inst.index_buffer).bufferSubData
        .elementArrayBuffer (uint32List indices)) := by
  unfold vbWriteIndices glWrite
  rw [if_pos h]
  rfl

/-- Closed form of a re-upload call (context already known): the stored
instance is returned and re-stored unchanged, the counter stays, and the
GL effects are exactly the selection loop followed by the conditional
index write. -/
theorem vbCopyOnto_reupload_eq (vb : VertexBuffer) (alarm nextObj : Nat) (ctx : Ctx)
    (gl : GLState) (sel : List String) (wIdx : Bool) (inst : VBInst)
    (hctx : alookup vb.gpu_instances ctx = some inst)
    (hsel : ∀ n ∈ sel, (alookup vb.arrays n).isSome = true) :
    vbCopyOnto vb alarm nextObj ctx gl sel wIdx =
      { res := .ok inst,
        vb := vb,
        alarm := alarm, nextObj := nextObj + 1,
        gl := (vbWriteIndices true vb.indices wIdx inst
          (vbWriteLoop true vb.arrays sel inst gl).2.2).2 } := by
  have hL := vbWriteLoop_reupload vb.arrays sel inst gl hsel
  have hsuper := gcoCopyOnto_known_subclass alarm vb.gpu_instances ctx inst
    { objId := nextObj, webGL_buffer_pointers := [], index_buffer := none } hctx
  unfold vbCopyOnto
  rw [hctx]
  dsimp only
  rw [hsuper]
  dsimp only
  simp only [Option.isSome_some]
  rw [hL.1]
  dsimp only
  rw [hL.2.1, vbWriteIndices_true_fst, aset_eq_of_alookup vb.gpu_instances ctx inst hctx]

/-- C3: for a Vertex Data Set already uploaded once to a context, a
subsequent `copyOntoGraphicsCard(context, selectionOfArrays,
writeToIndices)` call returns the stored instance unchanged, increments
nothing, allocates no new buffer, fully overwrites exactly the buffers of
the attribute names in the selection (their flattened data replacing the
whole store, given the data still matches the store size and distinct
selected names own distinct buffers), rewrites the index buffer only when
`writeToIndices` is true and the index list is non-empty, and leaves
every buffer not named bit-identical to before the call. -/
theorem selective_reupload (vb : VertexBuffer) (alarm nextObj : Nat) (ctx : Ctx)
    (gl : GLState) (sel : List String) (wIdx : Bool) (inst : VBInst)
    (hctx : alookup vb.gpu_instances ctx = some inst)
    (hsel : ∀ n ∈ sel, (alookup vb.arrays n).isSome = true)
    (hnodup : sel.Nodup)
    (hinj : ∀ n₁ n₂, n₁ ∈ sel → n₂ ∈ sel → n₁ ≠ n₂ →
      ∀ b, alookup inst.webGL_buffer_pointers n₁ = some b →
        alookup inst.webGL_buffer_pointers n₂ ≠ some b)
    (hidx : ∀ n ∈ sel, ∀ b, alookup inst.webGL_buffer_pointers n = some b →
      inst.index_buffer ≠ some b) :
    (vbCopyOnto vb alarm nextObj ctx gl sel wIdx).res = .ok inst ∧
    (vbCopyOnto vb alarm nextObj ctx gl sel wIdx).vb = vb ∧
    (vbCopyOnto vb alarm nextObj ctx gl sel wIdx).alarm = alarm ∧
    (vbCopyOnto vb alarm nextObj ctx gl sel wIdx).gl.nextBuf = gl.nextBuf ∧
    (∀ n b arr old, n ∈ sel →
      alookup inst.webGL_buffer_pointers n = some b →
      alookup vb.arrays n = some arr →
      alookup gl.buffers b = some old →
      (flatten2dTo1D arr).length = old.length →
      alookup (vbCopyOnto vb alarm nextObj ctx gl sel wIdx).gl.buffers b =
        some (flatten2dTo1D arr)) ∧
    (vb.indices.length ≠ 0 → wIdx = true →
      ∀ bi oldI, inst.index_buffer = some bi →
      alookup gl.buffers bi = some oldI →
      (uint32List vb.indices).length = oldI.length →
      alookup (vbCopyOnto vb alarm nextObj ctx gl sel wIdx).gl.buffers bi =
        some (uint32List vb.indices)) ∧
    (∀ b, (∀ n ∈ sel, alookup inst.webGL_buffer_pointers n ≠ some b) →
      (inst.index_buffer = some b → ¬(vb.indices.length ≠ 0 ∧ wIdx = true)) →
      alookup (vbCopyOnto vb alarm nextObj ctx gl sel wIdx).gl.buffers b =
        alookup gl.buffers b) := by
  have hL := vbWriteLoop_reupload vb.arrays sel inst gl hsel
  have heq := vbCopyOnto_reupload_eq vb alarm nextObj ctx gl sel wIdx inst hctx hsel
  rw [heq]
  refine ⟨rfl, rfl, rfl, ?_, ?_, ?_, ?_⟩
  · show (vbWriteIndices true vb.indices wIdx inst _).2.nextBuf = gl.nextBuf
    by_cases hc : vb.indices.length ≠ 0 ∧ wIdx = true
    · rw [vbWriteIndices_true_write _ _ _ _ hc]
      dsimp only
      rw [bindWrite_nextBuf]
      exact hL.2.2.1
    · rw [vbWriteIndices_true_skip _ _ _ _ hc]
      exact hL.2.2.1
  · intro n b arr old hmem hptr harr hold hlen
    have hwritten := vbWriteLoop_writes vb.arrays sel inst gl n b arr old hsel hnodup
      hmem hptr harr hold hlen
      (fun n' hn' hne => hinj n n' hmem hn' (fun h => hne h.symm) b hptr)
    by_cases hc : vb.indices.length ≠ 0 ∧ wIdx = true
    · rw [vbWriteIndices_true_write _ _ _ _ hc]
      dsimp only
      rw [bindWrite_buffers]
      rw [storeSubData_lookup_ne _ _ _ b (hidx n hmem b hptr)]
      exact hwritten
    · rw [vbWriteIndices_true_skip _ _ _ _ hc]
      exact hwritten
  · intro hlen hw bi oldI hib hold hleni
    have hc : vb.indices.length ≠ 0 ∧ wIdx = true := ⟨hlen, hw⟩
    have hnotsel : ∀ n ∈ sel, alookup inst.webGL_buffer_pointers n ≠ some bi := by
      intro n hn hcon
      exact hidx n hn bi hcon hib
    have hframe := hL.2.2.2 bi hnotsel
    rw [vbWriteIndices_true_write _ _ _ _ hc]
    dsimp only
    rw [hib]
    exact bindWrite_buffers_write _ .elementArrayBuffer bi (uint32List vb.indices) oldI
      (hframe.trans hold) hleni
  · intro b hbsel hbidx
    by_cases hc : vb.indices.length ≠ 0 ∧ wIdx = true
    · rw [vbWriteIndices_true_write _ _ _ _ hc]
      dsimp only
      rw [bindWrite_buffers]
      rw [storeSubData_lookup_ne _ _ _ b (fun hib => (hbidx hib) hc)]
      exact hL.2.2.2 b hbsel
    · rw [vbWriteIndices_true_skip _ _ _ _ hc]
      exact hL.2.2.2 b hbsel

theorem alookup_isSome_of_mem_keys {κ α : Type} [DecidableEq κ] (l : List (κ × α)) (k : κ)
    (h : k ∈ l.map Prod.fst) : (alookup l k).isSome = true := by
  induction l with
  | nil => simp at h
  | cons p rest ih =>
    by_cases hp : p.1 = k
    · simp [alookup, hp]
    · rw [alookup, if_neg hp]
      simp only [List.map_cons, List.mem_cons] at h
      cases h with
      | inl h => exact absurd h.symm hp
      | inr h => exact ih h

theorem vbWriteOne_false_eq (arrays : List (String × List (List Int))) (inst : VBInst)
    (gl : GLState) (name : String) (arr : List (List Int))
    (harr : alookup arrays name = some arr) :
    vbWriteOne false arrays inst gl name =
      (none,
        { inst with webGL_buffer_pointers := aset inst.webGL_buffer_pointers name gl.nextBuf },
        ((gl.createBuffer.2).bindBuffer .arrayBuffer (some gl.nextBuf)).bufferData
          .arrayBuffer (flatten2dTo1D arr)) := by
  simp [vbWriteOne, harr, glWrite, GLState.createBuffer, alookup_aset_self]

/-- The first-upload loop raises nothing when every selected name exists
among the arrays, and never touches the instance's identity or its index
buffer slot. -/
theorem vbWriteLoop_fresh (arrays : List (String × List (List Int))) :
    ∀ (sel : List String) (inst : VBInst) (gl : GLState),
      (∀ n ∈ sel, (alookup arrays n).isSome = true) →
      (vbWriteLoop false arrays sel inst gl).1 = none ∧
      (vbWriteLoop false arrays sel inst gl).2.1.objId = inst.objId ∧
      (vbWriteLoop false arrays sel inst gl).2.1.index_buffer = inst.index_buffer := by
  intro sel
  induction sel with
  | nil => intro inst gl _; exact ⟨rfl, rfl, rfl⟩
  | cons n rest ih =>
    intro inst gl hsel
    obtain ⟨arr, harr⟩ := Option.isSome_iff_exists.mp (hsel n (by simp))
    have hone := vbWriteOne_false_eq arrays inst gl n arr harr
    have hrest := ih
      { inst with webGL_buffer_pointers := aset inst.webGL_buffer_pointers n gl.nextBuf }
      (((gl.createBuffer.2).bindBuffer .arrayBuffer (some gl.nextBuf)).bufferData
        .arrayBuffer (flatten2dTo1D arr))
      (fun n' hn' => hsel n' (by simp [hn']))
    refine ⟨?_, ?_, ?_⟩
    · simp only [vbWriteLoop, hone]
      exact hrest.1
    · simp only [vbWriteLoop, hone]
      exact hrest.2.1
    · simp only [vbWriteLoop, hone]
      exact hrest.2.2

theorem vbWriteIndices_objId (d : Bool) (indices : List Nat) (wIdx : Bool) (inst : VBInst)
    (gl : GLState) : (vbWriteIndices d indices wIdx inst gl).1.objId = inst.objId := by
  unfold vbWriteIndices
  split
  · cases d <;> rfl
  · rfl

/-- Closed form of a first-upload call: the blank instance allocated by
this call (identity `nextObj`) is populated, stored for the context and
returned; the counter and the object allocator each advance by one. -/
theorem vbCopyOnto_fresh_ok (vb : VertexBuffer) (alarm nextObj : Nat) (ctx : Ctx)
    (gl : GLState) (sel : List String) (wIdx : Bool)
    (hctx : alookup vb.gpu_instances ctx = none) (halarm : alarm ≤ 200)
    (hsel : ∀ n ∈ sel, (alookup vb.arrays n).isSome = true) :
    ∃ inst' gl', vbCopyOnto vb alarm nextObj ctx gl sel wIdx =
        { res := .ok inst',
          vb := { vb with gpu_instances := aset vb.gpu_instances ctx inst' },
          alarm := alarm + 1, nextObj := nextObj + 1, gl := gl' } ∧
      inst'.objId = nextObj := by
  have hsuper := gcoCopyOnto_fresh (fun _ => true) alarm vb.gpu_instances ctx
    { objId := nextObj, webGL_buffer_pointers := [], index_buffer := none } hctx halarm
  have hL := vbWriteLoop_fresh vb.arrays sel
    { objId := nextObj, webGL_buffer_pointers := [], index_buffer := none } gl hsel
  refine ⟨(vbWriteIndices false vb.indices wIdx
      (vbWriteLoop false vb.arrays sel
        { objId := nextObj, webGL_buffer_pointers := [], index_buffer := none } gl).2.1
      (vbWriteLoop false vb.arrays sel
        { objId := nextObj, webGL_buffer_pointers := [], index_buffer := none } gl).2.2).1,
    (vbWriteIndices false vb.indices wIdx
      (vbWriteLoop false vb.arrays sel
        { objId := nextObj, webGL_buffer_pointers := [], index_buffer := none } gl).2.1
      (vbWriteLoop false vb.arrays sel
        { objId := nextObj, webGL_buffer_pointers := [], index_buffer := none } gl).2.2).2,
    ?_, ?_⟩
  · unfold vbCopyOnto
    rw [hctx]
    dsimp only
    rw [hsuper]
    dsimp only
    simp only [Option.isSome_none]
    rw [hL.1]
    dsimp only
    rw [aset_aset_same]
  · rw [vbWriteIndices_objId]
    exact hL.2.1

/-- C4: activating the same Vertex Data Set on two distinct fresh context
handles creates and stores two distinct representation objects (different
identities), one per context; replacing the entry held for one context
(with anything) leaves the entry held for the other context unchanged. -/
theorem per_context_isolation (vb : VertexBuffer) (alarm nextObj : Nat) (c1 c2 : Ctx)
    (gl1 gl2 : GLState)
    (hne : c1 ≠ c2)
    (h1 : alookup vb.gpu_instances c1 = none)
    (h2 : alookup vb.gpu_instances c2 = none)
    (halarm : alarm ≤ 199) :
    ∃ i1 i2,
      (vbActivate vb alarm nextObj c1 gl1).res = .ok i1 ∧
      (vbActivate (vbActivate vb alarm nextObj c1 gl1).vb
        (vbActivate vb alarm nextObj c1 gl1).alarm
        (vbActivate vb alarm nextObj c1 gl1).nextObj c2 gl2).res = .ok i2 ∧
      i1.objId ≠ i2.objId ∧
      (let m := (vbActivate (vbActivate vb alarm nextObj c1 gl1).vb
          (vbActivate vb alarm nextObj c1 gl1).alarm
          (vbActivate vb alarm nextObj c1 gl1).nextObj c2 gl2).vb.gpu_instances;
        alookup m c1 = some i1 ∧ alookup m c2 = some i2 ∧
        (∀ v, alookup (aset m c1 v) c2 = some i2) ∧
        (∀ v, alookup (aset m c2 v) c1 = some i1)) := by
  have hsel : ∀ n ∈ vb.arrays.map Prod.fst, (alookup vb.arrays n).isSome = true :=
    fun n hn => alookup_isSome_of_mem_keys vb.arrays n hn
  obtain ⟨i1, gl1', heq1, hid1⟩ := vbCopyOnto_fresh_ok vb alarm nextObj c1 gl1
    (vb.arrays.map Prod.fst) true h1 (by omega) hsel
  have hact1 : vbActivate vb alarm nextObj c1 gl1 =
      vbCopyOnto vb alarm nextObj c1 gl1 (vb.arrays.map Prod.fst) true := by
    unfold vbActivate
    rw [h1]
  have h2' : alookup (aset vb.gpu_instances c1 i1) c2 = none := by
    rw [alookup_aset_ne vb.gpu_instances c1 c2 i1 hne]
    exact h2
  obtain ⟨i2, gl2', heq2, hid2⟩ := vbCopyOnto_fresh_ok
    { vb with gpu_instances := aset vb.gpu_instances c1 i1 }
    (alarm + 1) (nextObj + 1) c2 gl2 (vb.arrays.map Prod.fst) true h2' (by omega) hsel
  have hact2 : vbActivate { vb with gpu_instances := aset vb.gpu_instances c1 i1 }
      (alarm + 1) (nextObj + 1) c2 gl2 =
      vbCopyOnto { vb with gpu_instances := aset vb.gpu_instances c1 i1 }
        (alarm + 1) (nextObj + 1) c2 gl2 (vb.arrays.map Prod.fst) true := by
    unfold vbActivate
    rw [h2']
  refine ⟨i1, i2, ?_, ?_, ?_, ?_, ?_, ?_, ?_⟩
  · rw [hact1, heq1]
  · rw [hact1, heq1]
    dsimp only
    rw [hact2, heq2]
  · rw [hid1, hid2]
    omega
  · rw [hact1, heq1]
    dsimp only
    rw [hact2, heq2]
    dsimp only
    rw [alookup_aset_ne _ c2 c1 i2 (Ne.symm hne)]
    exact alookup_aset_self vb.gpu_instances c1 i1
  · rw [hact1, heq1]
    dsimp only
    rw [hact2, heq2]
    dsimp only
    exact alookup_aset_self _ c2 i2
  · intro v
    rw [hact1, heq1]
    dsimp only
    rw [hact2, heq2]
    dsimp only
    rw [alookup_aset_ne _ c1 c2 v hne]
    exact alookup_aset_self _ c2 i2
  · intro v
    rw [hact1, heq1]
    dsimp only
    rw [hact2, heq2]
    dsimp only
    rw [alookup_aset_ne _ c2 c1 v (Ne.symm hne)]
    rw [alookup_aset_ne _ c2 c1 i2 (Ne.symm hne)]
    exact alookup_aset_self vb.gpu_instances c1 i1

def instSelEx : VBInst :=
  { objId := 0, webGL_buffer_pointers := [("position", 0), ("texture_coord", 1)],
    index_buffer := some 2 }

/-- A two-attribute indexed shape already uploaded once to context 0,
whose `texture_coord` array has since been changed on the JS side. -/
def vbSelEx : VertexBuffer :=
  { arrays := [("position", [[1, 2, 3], [4, 5, 6]]), ("texture_coord", [[70, 80], [90, 100]])],
    indices := [0, 1, 2],
    gpu_instances := [(0, instSelEx)] }

/-- The GL state left behind by the first upload of `vbSelEx`. -/
def glSelEx : GLState :=
  { nextBuf := 3,
    buffers := [(0, [1, 2, 3, 4, 5, 6]), (1, [7, 8, 9, 10]), (2, [0, 1, 2])],
    boundArrayBuf := some 2, boundElementBuf := some 2 }

/-- C3 instantiated concretely: re-uploading only `texture_coord` with
`writeToIndices = false` rewrites exactly the `texture_coord` buffer and
leaves the `position` and index buffers bit-identical. -/
theorem selective_reupload_witness :
    alookup vbSelEx.gpu_instances 0 = some instSelEx ∧
    (vbCopyOnto vbSelEx 1 1 0 glSelEx ["texture_coord"] false).res = .ok instSelEx ∧
    (vbCopyOnto vbSelEx 1 1 0 glSelEx ["texture_coord"] false).vb = vbSelEx ∧
    (vbCopyOnto vbSelEx 1 1 0 glSelEx ["texture_coord"] false).alarm = 1 ∧
    (vbCopyOnto vbSelEx 1 1 0 glSelEx ["texture_coord"] false).gl.nextBuf = 3 ∧
    alookup (vbCopyOnto vbSelEx 1 1 0 glSelEx ["texture_coord"] false).gl.buffers 1 =
      some [70, 80, 90, 100] ∧
    alookup (vbCopyOnto vbSelEx 1 1 0 glSelEx ["texture_coord"] false).gl.buffers 0 =
      some [1, 2, 3, 4, 5, 6] ∧
    alookup (vbCopyOnto vbSelEx 1 1 0 glSelEx ["texture_coord"] false).gl.buffers 2 =
      some [0, 1, 2] := by
  have h := selective_reupload vbSelEx 1 1 0 glSelEx ["texture_coord"] false instSelEx
    rfl
    (by intro n hn; rw [List.mem_singleton] at hn; subst hn; rfl)
    (by simp)
    (by intro n₁ n₂ h1 h2 hne b _
        rw [List.mem_singleton] at h1 h2
        subst h1; subst h2
        exact absurd rfl hne)
    (by intro n hn b hb
        rw [List.mem_singleton] at hn
        subst hn
        simp only [instSelEx, alookup] at hb ⊢
        split at hb
        · exact absurd hb (by simp_all)
        · simp at hb
          subst hb
          decide)
  refine ⟨rfl, h.1, h.2.1, h.2.2.1, h.2.2.2.1, ?_, ?_, ?_⟩
  · exact h.2.2.2.2.1 "texture_coord" 1 [[70, 80], [90, 100]] [7, 8, 9, 10]
      (by simp) (by decide) (by decide) (by decide) (by decide)
  · exact h.2.2.2.2.2.2 0
      (by intro n hn; rw [List.mem_singleton] at hn; subst hn; decide)
      (by intro hib; exact absurd hib (by decide))
  · exact h.2.2.2.2.2.2 2
      (by intro n hn; rw [List.mem_singleton] at hn; subst hn; decide)
      (by intro _ hc; exact absurd hc.2 (by decide))

/-- A never-uploaded one-attribute shape, for the isolation scenario. -/
def vbIsoEx : VertexBuffer :=
  { arrays := [("position", [[1, 2, 3]])], indices := [], gpu_instances := [] }

def glIsoEx : GLState :=
  { nextBuf := 0, buffers := [], boundArrayBuf := none, boundElementBuf := none }

/-- C4 instantiated concretely: activating the example shape on contexts
0 and 1 yields two distinct stored representations whose entries do not
interfere under replacement. -/
theorem per_context_isolation_witness :
    (0 : Ctx) ≠ 1 ∧
    alookup vbIsoEx.gpu_instances 0 = none ∧
    alookup vbIsoEx.gpu_instances 1 = none ∧
    (7 : Nat) ≤ 199 ∧
    (∃ i1 i2,
      (vbActivate vbIsoEx 7 5 0 glIsoEx).res = .ok i1 ∧
      (vbActivate (vbActivate vbIsoEx 7 5 0 glIsoEx).vb
        (vbActivate vbIsoEx 7 5 0 glIsoEx).alarm
        (vbActivate vbIsoEx 7 5 0 glIsoEx).nextObj 1 glIsoEx).res = .ok i2 ∧
      i1.objId ≠ i2.objId ∧
      (let m := (vbActivate (vbActivate vbIsoEx 7 5 0 glIsoEx).vb
          (vbActivate vbIsoEx 7 5 0 glIsoEx).alarm
          (vbActivate vbIsoEx 7 5 0 glIsoEx).nextObj 1 glIsoEx).vb.gpu_instances;
        alookup m 0 = some i1 ∧ alookup m 1 = some i2 ∧
        (∀ v, alookup (aset m 0 v) 1 = some i2) ∧
        (∀ v, alookup (aset m 1 v) 0 = some i1))) :=
  ⟨by decide, rfl, rfl, by decide,
    per_context_isolation vbIsoEx 7 5 0 1 glIsoEx glIsoEx (by decide) rfl rfl (by decide)⟩

/-- Embedding of `gl.getActiveUniform(program, i).name.split('[')[0]`:
the name up to the first array subscript (the whole name when there is
none). -/
def stripSubscript (s : String) : String :=
  String.mk (s.data.takeWhile (fun c => c ≠ '['))

/-- One entry of `shader_attributes` as built by the `GraphicsAddresses`
constructor (utils.js lines 182-187); `type`, `normalized`, `stride` and
`pointer` are set to the constants of the source. -/
structure AttrInfo where
  index : Int
  size : Option Nat
  enabled : Bool
  type : Nat
  normalized : Bool
  stride : Nat
  pointer : Nat
deriving DecidableEq, Repr

/-- Embedding of `typeToSizeMapping = {0x1406: 1, 0x8B50: 2, 0x8B51: 3,
0x8B52: 4}` indexing (an absent key yields `undefined`). -/
def typeToSizeMapping (t : Nat) : Option Nat :=
  if t = 0x1406 then some 1
  else if t = 0x8B50 then some 2
  else if t = 0x8B51 then some 3
  else if t = 0x8B52 then some 4
  else none

def mkAttrInfo (aloc : String → Int) (p : String × Nat) : AttrInfo :=
  { index := aloc p.1, size := typeToSizeMapping p.2, enabled := true,
    type := 0x1406, normalized := false, stride := 0, pointer := 0 }

/-- The two tables built by `GraphicsAddresses` (utils.js lines 164-190):
uniform locations keyed by stripped name (as direct properties of `this`)
and attribute records keyed by attribute name. -/
structure GraphicsAddresses where
  uniforms : List (String × Nat)
  shader_attributes : List (String × AttrInfo)
deriving DecidableEq, Repr

/-- Embedding of the `GraphicsAddresses` constructor.  The GL driver's
introspection answers are inputs: the active uniform names in enumeration
order, the uniform-location oracle, the active attributes with their GLSL
type codes, and the attribute-location oracle.  Both loops assign into a
JS object, i.e. insert-or-replace. -/
def mkGraphicsAddresses (uniformNames : List String) (uloc : String → Nat)
    (attribs : List (String × Nat)) (aloc : String → Int) : GraphicsAddresses :=
  { uniforms := uniformNames.foldl (fun acc nm =>
      aset acc (stripSubscript nm) (uloc (stripSubscript nm))) [],
    shader_attributes := attribs.foldl (fun acc p => aset acc p.1 (mkAttrInfo aloc p)) [] }

theorem alookup_isSome_iff_mem_keys {κ α : Type} [DecidableEq κ] (m : List (κ × α)) (k : κ) :
    (alookup m k).isSome = true ↔ k ∈ m.map Prod.fst := by
  induction m with
  | nil => simp [alookup]
  | cons p rest ih =>
    by_cases hp : p.1 = k
    · simp [alookup, hp]
    · rw [alookup, if_neg hp]
      simp only [List.map_cons, List.mem_cons, ih]
      constructor
      · exact Or.inr
      · intro h
        cases h with
        | inl h => exact absurd h.symm hp
        | inr h => exact h

theorem mem_keys_aset {κ α : Type} [DecidableEq κ] (m : List (κ × α)) (k k' : κ) (v : α) :
    k' ∈ (aset m k v).map Prod.fst ↔ k' ∈ m.map Prod.fst ∨ k' = k := by
  induction m with
  | nil => simp [aset, eq_comm]
  | cons p rest ih =>
    by_cases hp : p.1 = k
    · have ha : aset (p :: rest) k v = (k, v) :: rest := by simp [aset, hp]
      rw [ha]
      simp only [List.map_cons, List.mem_cons, hp]
      tauto
    · have ha : aset (p :: rest) k v = p :: aset rest k v := by simp [aset, hp]
      rw [ha]
      simp only [List.map_cons, List.mem_cons, ih]
      tauto

theorem nodup_keys_aset {κ α : Type} [DecidableEq κ] (m : List (κ × α)) (k : κ) (v : α)
    (h : (m.map Prod.fst).Nodup) : ((aset m k v).map Prod.fst).Nodup := by
  induction m with
  | nil => simp [aset]
  | cons p rest ih =>
    simp only [List.map_cons, List.nodup_cons] at h
    by_cases hp : p.1 = k
    · have ha : aset (p :: rest) k v = (k, v) :: rest := by simp [aset, hp]
      rw [ha]
      simp only [List.map_cons, List.nodup_cons]
      exact ⟨hp ▸ h.1, h.2⟩
    · have ha : aset (p :: rest) k v = p :: aset rest k v := by simp [aset, hp]
      rw [ha]
      simp only [List.map_cons, List.nodup_cons, mem_keys_aset]
      exact ⟨fun hc => hc.elim h.1 hp, ih h.2⟩

theorem uniformFold_nodup (uloc : String → Nat) :
    ∀ (names : List String) (acc : List (String × Nat)),
      (acc.map Prod.fst).Nodup →
      ((names.foldl (fun acc nm =>
        aset acc (stripSubscript nm) (uloc (stripSubscript nm))) acc).map Prod.fst).Nodup := by
  intro names
  induction names with
  | nil => intro acc h; exact h
  | cons nm rest ih =>
    intro acc h
    exact ih _ (nodup_keys_aset acc (stripSubscript nm) _ h)

theorem uniformFold_mem (uloc : String → Nat) :
    ∀ (names : List String) (acc : List (String × Nat)) (u : String),
      (u ∈ (names.foldl (fun acc nm =>
          aset acc (stripSubscript nm) (uloc (stripSubscript nm))) acc).map Prod.fst ↔
        u ∈ acc.map Prod.fst ∨ ∃ nm ∈ names, stripSubscript nm = u) := by
  intro names
  induction names with
  | nil => intro acc u; simp
  | cons nm rest ih =>
    intro acc u
    simp only [List.foldl_cons, ih, mem_keys_aset, List.mem_cons]
    constructor
    · intro h
      rcases h with (h | h) | h
      · exact Or.inl h
      · exact Or.inr ⟨nm, by simp, h.symm⟩
      · rcases h with ⟨nm', hnm', hs⟩
        exact Or.inr ⟨nm', by simp [hnm'], hs⟩
    · intro h
      rcases h with h | ⟨nm', hnm', hs⟩
      · exact Or.inl (Or.inl h)
      · rcases hnm' with hnm' | hnm'
        · exact Or.inl (Or.inr (by rw [← hnm', hs]))
        · exact Or.inr ⟨nm', hnm', hs⟩

theorem attribFold_eq (aloc : String → Int) :
    ∀ (attribs : List (String × Nat)) (acc : List (String × AttrInfo)),
      (∀ p ∈ attribs, p.1 ∉ acc.map Prod.fst) →
      (attribs.map Prod.fst).Nodup →
      attribs.foldl (fun acc p => aset acc p.1 (mkAttrInfo aloc p)) acc =
        acc ++ attribs.map (fun p => (p.1, mkAttrInfo aloc p)) := by
  intro attribs
  induction attribs with
  | nil => intro acc _ _; simp
  | cons p rest ih =>
    intro acc hout hnodup
    simp only [List.map_cons, List.nodup_cons] at hnodup
    have habs : alookup acc p.1 = none := by
      cases h : alookup acc p.1 with
      | none => rfl
      | some v =>
        have : (alookup acc p.1).isSome = true := by rw [h]; rfl
        exact absurd ((alookup_isSome_iff_mem_keys acc p.1).mp this)
          (hout p (by simp))
    simp only [List.foldl_cons]
    rw [aset_absent acc p.1 _ habs]
    have hout' : ∀ q ∈ rest, q.1 ∉ (acc ++ [(p.1, mkAttrInfo aloc p)]).map Prod.fst := by
      intro q hq
      simp only [List.map_append, List.mem_append, List.map_cons, List.map_nil,
        List.mem_singleton]
      rintro (hqa | hqp)
      · exact hout q (by simp [hq]) hqa
      · exact hnodup.1 (by rw [← hqp]; exact List.mem_map_of_mem Prod.fst hq)
    rw [ih (acc ++ [(p.1, mkAttrInfo aloc p)]) hout' hnodup.2, List.append_assoc]
    simp

/-- C5: after a successful compile and link, the built address table has
exactly one uniform entry per uniform name with any array-subscript
suffix stripped (keys are duplicate-free, and a key is present exactly
when some active uniform name strips to it), and one entry per active
per-vertex attribute (given the driver reports distinct attribute names)
whose recorded component count follows the declared type: the float,
vec2, vec3 and vec4 type codes map to component counts 1, 2, 3 and 4. -/
theorem address_table (uniformNames : List String) (uloc : String → Nat)
    (attribs : List (String × Nat)) (aloc : String → Int)
    (hnodup : (attribs.map Prod.fst).Nodup) :
    ((mkGraphicsAddresses uniformNames uloc attribs aloc).uniforms.map Prod.fst).Nodup ∧
    (∀ u, u ∈ (mkGraphicsAddresses uniformNames uloc attribs aloc).uniforms.map Prod.fst ↔
      ∃ nm ∈ uniformNames, stripSubscript nm = u) ∧
    (mkGraphicsAddresses uniformNames uloc attribs aloc).shader_attributes =
      attribs.map (fun p => (p.1, mkAttrInfo aloc p)) ∧
    typeToSizeMapping 0x1406 = some 1 ∧ typeToSizeMapping 0x8B50 = some 2 ∧
    typeToSizeMapping 0x8B51 = some 3 ∧ typeToSizeMapping 0x8B52 = some 4 := by
  refine ⟨?_, ?_, ?_, rfl, rfl, rfl, rfl⟩
  · exact uniformFold_nodup uloc uniformNames [] (by simp)
  · intro u
    rw [show (mkGraphicsAddresses uniformNames uloc attribs aloc).uniforms =
      uniformNames.foldl (fun acc nm =>
        aset acc (stripSubscript nm) (uloc (stripSubscript nm))) [] from rfl]
    rw [uniformFold_mem uloc uniformNames [] u]
    simp
  · rw [show (mkGraphicsAddresses uniformNames uloc attribs aloc).shader_attributes =
      attribs.foldl (fun acc p => aset acc p.1 (mkAttrInfo aloc p)) [] from rfl]
    rw [attribFold_eq aloc attribs [] (by simp) hnodup]
    simp

/-- C5 instantiated on the claim's scenario: a scalar `ambient`, a
two-element array uniform `light_colors` (enumerated with subscripts by
the driver), a vec3 `position` and a vec2 `texture_coord` yield one
single `light_colors` entry and component counts 3 and 2. -/
theorem address_table_witness :
    (([("position", 0x8B51), ("texture_coord", 0x8B50)].map Prod.fst).Nodup) ∧
    ((mkGraphicsAddresses ["ambient", "light_colors[0]", "light_colors[1]"] (fun _ => 0)
        [("position", 0x8B51), ("texture_coord", 0x8B50)] (fun _ => 0)).uniforms.map
      Prod.fst).Nodup ∧
    (mkGraphicsAddresses ["ambient", "light_colors[0]", "light_colors[1]"] (fun _ => 0)
        [("position", 0x8B51), ("texture_coord", 0x8B50)] (fun _ => 0)).uniforms.map
      Prod.fst = ["ambient", "light_colors"] ∧
    ("light_colors" ∈ (mkGraphicsAddresses ["ambient", "light_colors[0]", "light_colors[1]"]
        (fun _ => 0) [("position", 0x8B51), ("texture_coord", 0x8B50)]
        (fun _ => 0)).uniforms.map Prod.fst ↔
      ∃ nm ∈ ["ambient", "light_colors[0]", "light_colors[1]"],
        stripSubscript nm = "light_colors") ∧
    (alookup (mkGraphicsAddresses ["ambient", "light_colors[0]", "light_colors[1]"]
        (fun _ => 0) [("position", 0x8B51), ("texture_coord", 0x8B50)]
        (fun _ => 0)).shader_attributes "position").map AttrInfo.size = some (some 3) ∧
    (alookup (mkGraphicsAddresses ["ambient", "light_colors[0]", "light_colors[1]"]
        (fun _ => 0) [("position", 0x8B51), ("texture_coord", 0x8B50)]
        (fun _ => 0)).shader_attributes "texture_coord").map AttrInfo.size =
      some (some 2) := by
  have h := address_table ["ambient", "light_colors[0]", "light_colors[1]"] (fun _ => 0)
    [("position", 0x8B51), ("texture_coord", 0x8B50)] (fun _ => 0) (by decide)
  exact ⟨by decide, h.1, by decide, h.2.1 "light_colors", by decide, by decide⟩

/-- The WebGL calls the `Texture` code can issue, in trace order.
`texParameteri` records the parameter code (0x2800 = TEXTURE_MAG_FILTER,
0x2801 = TEXTURE_MIN_FILTER). -/
inductive GpuCall : Type
  | createTexture : Nat → GpuCall
  | bindTexture : Option Nat → GpuCall
  | pixelStorei : GpuCall
  | texParameteri : Nat → GpuCall
  | texImage2D : GpuCall
  | generateMipmap : GpuCall
  | activeTexture : Nat → GpuCall
deriving DecidableEq, Repr

/-- Per-context representation of a `Texture`: initially
`{texture_buffer_pointer: undefined}`. -/
structure TexInst where
  texture_buffer_pointer : Option Nat
deriving DecidableEq, Repr

/-- The `Texture` fields the activation path reads (the async image load
is modelled by the `ready` flag its `onload` callback flips). -/
structure Texture where
  min_filter : String
  ready : Bool
  gpu_instances : List (Ctx × TexInst)
deriving DecidableEq, Repr

/-- Result of one `Texture.copyOntoGraphicsCard` call, with the WebGL
calls it issued. -/
structure TexResult where
  res : Except JsErr TexInst
  tex : Texture
  alarm : Nat
  nextTex : Nat
  calls : List GpuCall
deriving Repr

/-- Embedding of `Texture.copyOntoGraphicsCard` (shadowDemoShader.js
lines 524-556): the `super` call stores a blank instance on a fresh
context (and can raise the excessive-upload error); a missing texture
handle is created; the texture is bound, optionally configured, the pixel
data uploaded, and mip levels generated when `min_filter` is
`LINEAR_MIPMAP_LINEAR`. -/
def texCopyOnto (tex : Texture) (alarm nextTex : Nat) (ctx : Ctx)
    (need_initial_settings : Bool) : TexResult :=
  let initialGpuRepresentation : TexInst := { texture_buffer_pointer := none }
  let s := gcoCopyOnto (fun _ => true) alarm tex.gpu_instances ctx initialGpuRepresentation
  match s.res with
  | .error e =>
    { res := .error e, tex := { tex with gpu_instances := s.instances },
      alarm := s.alarm, nextTex, calls := [] }
  | .ok gpuInstance =>
    let created :=
      match gpuInstance.texture_buffer_pointer with
      | none => (({ texture_buffer_pointer := some nextTex } : TexInst), nextTex + 1,
          [GpuCall.createTexture nextTex])
      | some _ => (gpuInstance, nextTex, [])
    let inst := created.1
    let settingsCalls :=
      if need_initial_settings then
        [GpuCall.pixelStorei, GpuCall.texParameteri 0x2800, GpuCall.texParameteri 0x2801]
      else []
    let mipCalls :=
      if tex.min_filter = "LINEAR_MIPMAP_LINEAR" then [GpuCall.generateMipmap] else []
    { res := .ok inst,
      tex := { tex with gpu_instances := aset s.instances ctx inst },
      alarm := s.alarm, nextTex := created.2.1,
      calls := created.2.2 ++ [GpuCall.bindTexture inst.texture_buffer_pointer] ++
        settingsCalls ++ [GpuCall.texImage2D] ++ mipCalls }

/-- Result of one `Texture.activate` call (the JS function returns
`undefined` on every path; what matters is whether it throws, the state,
and the GPU calls issued). -/
structure TexActResult where
  err : Option JsErr
  tex : Texture
  alarm : Nat
  nextTex : Nat
  calls : List GpuCall
deriving Repr

/-- Embedding of `Texture.activate` (shadowDemoShader.js lines 558-568):
an unfinished image load makes the call a no-op; otherwise the inherited
`activate` either finds the stored (always truthy) instance or performs
the full upload via the subclass's `copyOntoGraphicsCard` (with its
default `need_initial_settings = true`), and then the texture unit is
selected and the cached handle bound. -/
def texActivate (tex : Texture) (alarm nextTex : Nat) (ctx : Ctx)
    (texture_unit : Nat) : TexActResult :=
  if tex.ready = false then
    { err := none, tex, alarm, nextTex, calls := [] }
  else
    match alookup tex.gpu_instances ctx with
    | some inst =>
      { err := none, tex, alarm, nextTex,
        calls := [GpuCall.activeTexture texture_unit,
          GpuCall.bindTexture inst.texture_buffer_pointer] }
    | none =>
      let r := texCopyOnto tex alarm nextTex ctx true
      match r.res with
      | .error e =>
        { err := some e, tex := r.tex, alarm := r.alarm, nextTex := r.nextTex,
          calls := r.calls }
      | .ok inst =>
        { err := none, tex := r.tex, alarm := r.alarm, nextTex := r.nextTex,
          calls := r.calls ++ [GpuCall.activeTexture texture_unit,
            GpuCall.bindTexture inst.texture_buffer_pointer] }

theorem texCopyOnto_fresh_eq (tex : Texture) (alarm nextTex : Nat) (ctx : Ctx)
    (hfresh : alookup tex.gpu_instances ctx = none) (halarm : alarm ≤ 200) :
    texCopyOnto tex alarm nextTex ctx true =
      { res := .ok ({ texture_buffer_pointer := some nextTex } : TexInst),
        tex := { tex with gpu_instances := aset tex.gpu_instances ctx ({ texture_buffer_pointer := some nextTex } : TexInst) },
        alarm := alarm + 1, nextTex := nextTex + 1,
        calls := [GpuCall.createTexture nextTex, GpuCall.bindTexture (some nextTex),
            GpuCall.pixelStorei, GpuCall.texParameteri 0x2800,
            GpuCall.texParameteri 0x2801, GpuCall.texImage2D] ++
          (if tex.min_filter = "LINEAR_MIPMAP_LINEAR" then [GpuCall.generateMipmap]
            else []) } := by
  have hsuper := gcoCopyOnto_fresh (fun _ => true) alarm tex.gpu_instances ctx
    { texture_buffer_pointer := none } hfresh halarm
  unfold texCopyOnto
  dsimp only
  rw [hsuper]
  dsimp only
  rw [aset_aset_same]
  simp

/-- C6: activating a Texture whose image has not loaded performs zero GPU
calls and raises nothing; once `ready` is true, the first activation of a
fresh context performs exactly one pixel upload (one `texImage2D`, one
`createTexture`, with mip generation exactly when `min_filter` is
`LINEAR_MIPMAP_LINEAR`) and stores the handle, and every later activation
for that context performs no upload: it only selects the texture unit
and rebinds the cached handle, changing no state. -/
theorem texture_not_ready_then_once (tex : Texture) (alarm nextTex : Nat) (ctx : Ctx)
    (u u' : Nat)
    (hfresh : alookup tex.gpu_instances ctx = none) (halarm : alarm ≤ 200) :
    (tex.ready = false →
      texActivate tex alarm nextTex ctx u =
        { err := none, tex, alarm, nextTex, calls := [] }) ∧
    (tex.ready = true →
      (texActivate tex alarm nextTex ctx u).err = none ∧
      ((texActivate tex alarm nextTex ctx u).calls.count GpuCall.texImage2D = 1) ∧
      ((texActivate tex alarm nextTex ctx u).calls.count (GpuCall.createTexture nextTex) = 1) ∧
      (GpuCall.generateMipmap ∈ (texActivate tex alarm nextTex ctx u).calls ↔
        tex.min_filter = "LINEAR_MIPMAP_LINEAR") ∧
      (texActivate tex alarm nextTex ctx u).alarm = alarm + 1 ∧
      alookup (texActivate tex alarm nextTex ctx u).tex.gpu_instances ctx =
        some ({ texture_buffer_pointer := some nextTex } : TexInst) ∧
      (texActivate (texActivate tex alarm nextTex ctx u).tex
          (texActivate tex alarm nextTex ctx u).alarm
          (texActivate tex alarm nextTex ctx u).nextTex ctx u') =
        { err := none, tex := (texActivate tex alarm nextTex ctx u).tex,
          alarm := alarm + 1, nextTex := nextTex + 1,
          calls := [GpuCall.activeTexture u', GpuCall.bindTexture (some nextTex)] }) := by
  constructor
  · intro hready
    unfold texActivate
    rw [hready]
    rfl
  · intro hready
    have hcopy := texCopyOnto_fresh_eq tex alarm nextTex ctx hfresh halarm
    have hact : texActivate tex alarm nextTex ctx u =
        { err := none,
          tex := { tex with gpu_instances := aset tex.gpu_instances ctx ({ texture_buffer_pointer := some nextTex } : TexInst) },
          alarm := alarm + 1, nextTex := nextTex + 1,
          calls := ([GpuCall.createTexture nextTex, GpuCall.bindTexture (some nextTex),
              GpuCall.pixelStorei, GpuCall.texParameteri 0x2800,
              GpuCall.texParameteri 0x2801, GpuCall.texImage2D] ++
            (if tex.min_filter = "LINEAR_MIPMAP_LINEAR" then [GpuCall.generateMipmap]
              else [])) ++ [GpuCall.activeTexture u, GpuCall.bindTexture (some nextTex)] } := by
      unfold texActivate
      simp only [hready, Bool.true_eq_false, if_false]
      rw [hfresh]
      dsimp only
      rw [hcopy]
      dsimp only
      simp [hready]
    have hstored : alookup (aset tex.gpu_instances ctx
        ({ texture_buffer_pointer := some nextTex } : TexInst)) ctx =
        some ({ texture_buffer_pointer := some nextTex } : TexInst) :=
      alookup_aset_self tex.gpu_instances ctx _
    refine ⟨by rw [hact], ?_, ?_, ?_, by rw [hact], by rw [hact]; exact hstored, ?_⟩
    · rw [hact]
      by_cases hm : tex.min_filter = "LINEAR_MIPMAP_LINEAR" <;> simp [hm, List.count_append]
    · rw [hact]
      by_cases hm : tex.min_filter = "LINEAR_MIPMAP_LINEAR" <;> simp [hm, List.count_append]
    · rw [hact]
      by_cases hm : tex.min_filter = "LINEAR_MIPMAP_LINEAR" <;> simp [hm]
    · rw [hact]
      dsimp only
      unfold texActivate
      simp only [hready, Bool.true_eq_false, if_false]
      rw [hstored]

/-- The example texture before its image load completes. -/
def texNotReadyEx : Texture :=
  { min_filter := "LINEAR_MIPMAP_LINEAR", ready := false, gpu_instances := [] }

/-- The example texture after its image load completes. -/
def texReadyEx : Texture :=
  { min_filter := "LINEAR_MIPMAP_LINEAR", ready := true, gpu_instances := [] }

/-- C6 instantiated concretely: a not-yet-ready texture is a no-op; the
same texture once ready uploads exactly once on context 0 (with mip
generation, since the default tri-linear filtering is configured). -/
theorem texture_not_ready_then_once_witness :
    alookup ([] : List (Ctx × TexInst)) 0 = none ∧ (3 : Nat) ≤ 200 ∧
    texActivate texNotReadyEx 3 0 0 1 =
      { err := none, tex := texNotReadyEx, alarm := 3, nextTex := 0, calls := [] } ∧
    (texActivate texReadyEx 3 0 0 1).calls.count GpuCall.texImage2D = 1 ∧
    (GpuCall.generateMipmap ∈ (texActivate texReadyEx 3 0 0 1).calls ↔
      texReadyEx.min_filter = "LINEAR_MIPMAP_LINEAR") := by
  have h := texture_not_ready_then_once texNotReadyEx 3 0 0 1 2 rfl (by omega)
  have h2 := texture_not_ready_then_once texReadyEx 3 0 0 1 2 rfl (by omega)
  exact ⟨rfl, by omega, h.1 rfl, (h2.2 rfl).2.1, (h2.2 rfl).2.2.2.1⟩

/-- The answers the GL driver gives the shader-upload path: compile
status and info log of each stage, link status and log, and the
introspection data used to build the address table on success. -/
structure ShaderGLEnv where
  vertOk : Bool
  vertLog : String
  fragOk : Bool
  fragLog : String
  linkOk : Bool
  linkLog : String
  uniformNames : List String
  uloc : String → Nat
  attribs : List (String × Nat)
  aloc : String → Int

/-- Per-context representation of a `Shader`, initially
`{program: undefined, gpu_addresses: undefined, vertShdr: undefined,
fragShdr: undefined}`. -/
structure ShaderInst where
  program : Option Nat
  gpu_addresses : Option GraphicsAddresses
  vertShdr : Option Nat
  fragShdr : Option Nat
deriving DecidableEq, Repr

/-- The `Shader` state the upload path touches (the GLSL source strings
only matter through the driver's compile answers in `ShaderGLEnv`). -/
structure ShaderState where
  gpu_instances : List (Ctx × ShaderInst)
deriving DecidableEq, Repr

structure ShaderResult where
  res : Except JsErr ShaderInst
  sh : ShaderState
  alarm : Nat
  nextId : Nat
deriving Repr

/-- Embedding of `Shader.copyOntoGraphicsCard` (Shader.js lines 22-64).
The `super` call stores a blank instance on a fresh context (and can
raise the excessive-upload error); missing program/shader handles are
created; a vertex-stage compile failure throws
`"Vertex shader compile error: " + log`, a fragment-stage failure throws
`"Fragment shader compile error: " + log`.  On a link failure the source
evaluates `"Shader linker error: " + gl.getProgramInfoLog(this.program)`;
`this.program` is never assigned on a `Shader` (only the local `program`
and `gpu_instance.program` are), so the argument is `undefined` and the
WebGL host raises a TypeError before any message is built.  On success
the instance is populated with the program handles and a fresh
`GraphicsAddresses` table and re-stored. -/
def shaderCopyOnto (sh : ShaderState) (alarm nextId : Nat) (ctx : Ctx)
    (env : ShaderGLEnv) : ShaderResult :=
  let blank : ShaderInst :=
    { program := none, gpu_addresses := none, vertShdr := none, fragShdr := none }
  let s := gcoCopyOnto (fun _ => true) alarm sh.gpu_instances ctx blank
  match s.res with
  | .error e =>
    { res := .error e, sh := { gpu_instances := s.instances }, alarm := s.alarm, nextId }
  | .ok gpuInstance =>
    let prog := match gpuInstance.program with
      | some p => (p, nextId)
      | none => (nextId, nextId + 1)
    let vs := match gpuInstance.vertShdr with
      | some p => (p, prog.2)
      | none => (prog.2, prog.2 + 1)
    let fs := match gpuInstance.fragShdr with
      | some p => (p, vs.2)
      | none => (vs.2, vs.2 + 1)
    if env.vertOk = false then
      { res := .error (.thrown ("Vertex shader compile error: " ++ env.vertLog)),
        sh := { gpu_instances := s.instances }, alarm := s.alarm, nextId := fs.2 }
    else if env.fragOk = false then
      { res := .error (.thrown ("Fragment shader compile error: " ++ env.fragLog)),
        sh := { gpu_instances := s.instances }, alarm := s.alarm, nextId := fs.2 }
    else if env.linkOk = false then
      { res := .error .typeError,
        sh := { gpu_instances := s.instances }, alarm := s.alarm, nextId := fs.2 }
    else
      let inst : ShaderInst :=
        { program := some prog.1, vertShdr := some vs.1, fragShdr := some fs.1,
          gpu_addresses := some (mkGraphicsAddresses env.uniformNames env.uloc
            env.attribs env.aloc) }
      { res := .ok inst, sh := { gpu_instances := aset s.instances ctx inst },
        alarm := s.alarm, nextId := fs.2 }

/-- C7 (code bug witnessed on the failing input): on a fresh context,
a vertex-stage compile failure raises the error naming the vertex stage
with the native diagnostic, a fragment-stage failure raises the error
naming the fragment stage with its diagnostic, and on a successful
compile of both stages no error is raised when the link succeeds — but
when the link FAILS, the raised error is a host TypeError that carries no
diagnostic at all (because `getProgramInfoLog(this.program)` receives
`undefined`), not the claimed link error with the native link log. -/
theorem shader_error_paths :
    (shaderCopyOnto { gpu_instances := [] } 0 0 0
        { vertOk := false, vertLog := "V-LOG", fragOk := true, fragLog := "F-LOG",
          linkOk := true, linkLog := "L-LOG", uniformNames := [], uloc := fun _ => 0,
          attribs := [], aloc := fun _ => 0 }).res =
      .error (.thrown "Vertex shader compile error: V-LOG") ∧
    (shaderCopyOnto { gpu_instances := [] } 0 0 0
        { vertOk := true, vertLog := "V-LOG", fragOk := false, fragLog := "F-LOG",
          linkOk := true, linkLog := "L-LOG", uniformNames := [], uloc := fun _ => 0,
          attribs := [], aloc := fun _ => 0 }).res =
      .error (.thrown "Fragment shader compile error: F-LOG") ∧
    (shaderCopyOnto { gpu_instances := [] } 0 0 0
        { vertOk := true, vertLog := "V-LOG", fragOk := true, fragLog := "F-LOG",
          linkOk := false, linkLog := "L-LOG", uniformNames := [], uloc := fun _ => 0,
          attribs := [], aloc := fun _ => 0 }).res = .error .typeError ∧
    (shaderCopyOnto { gpu_instances := [] } 0 0 0
        { vertOk := true, vertLog := "V-LOG", fragOk := true, fragLog := "F-LOG",
          linkOk := false, linkLog := "L-LOG", uniformNames := [], uloc := fun _ => 0,
          attribs := [], aloc := fun _ => 0 }).res ≠
      .error (.thrown ("Shader linker error: " ++ "L-LOG")) := by
  refine ⟨rfl, rfl, rfl, ?_⟩
  intro h
  rw [show (shaderCopyOnto { gpu_instances := [] } 0 0 0
      { vertOk := true, vertLog := "V-LOG", fragOk := true, fragLog := "F-LOG",
        linkOk := false, linkLog := "L-LOG", uniformNames := [], uloc := fun _ => 0,
        attribs := [], aloc := fun _ => 0 }).res = .error .typeError from rfl] at h
  injection h with h'
  exact JsErr.noConfusion h'

/-- A scene node of the render loop: a display label (standing for its
`display` callback) and its `children` list. -/
inductive SceneTree : Type
  | node : Nat → List SceneTree → SceneTree
deriving Repr

def sizeForest : List SceneTree → Nat
  | [] => 0
  | .node _ cs :: ts => 1 + sizeForest cs + sizeForest ts

theorem sizeForest_append : ∀ (a b : List SceneTree),
    sizeForest (a ++ b) = sizeForest a + sizeForest b := by
  intro a
  induction a with
  | nil => intro b; simp [sizeForest]
  | cons t ts ih =>
    intro b
    cases t with
    | node l cs =>
      simp only [List.cons_append, sizeForest, ih]
      omega

/-- Embedding of the `while (openList.length)` loop of
`WebglManager.render` (utils.js lines 335-341): push the head's children
onto the END of the list, shift the head off and display it.  The output
is the sequence of display calls. -/
def displayOrder : List SceneTree → List Nat
  | [] => []
  | .node l cs :: rest => l :: displayOrder (rest ++ cs)
termination_by openList => sizeForest openList
decreasing_by
  rw [sizeForest_append]
  simp [sizeForest]
  omega

theorem displayOrder_nil : displayOrder [] = [] := by
  simp only [displayOrder]

theorem displayOrder_cons (l : Nat) (cs rest : List SceneTree) :
    displayOrder (SceneTree.node l cs :: rest) = l :: displayOrder (rest ++ cs) := by
  simp only [displayOrder]

/-- The per-frame scene state `render` reads and writes. -/
structure ProgramState where
  animationTime : Int
  animationDeltaTime : Int
  animate : Bool
deriving DecidableEq, Repr

/-- The `WebglManager` fields `render` touches (time values as exact
numbers; the claim concerns visiting order, not float rounding). -/
structure ManagerState where
  prev_time : Int
  programState : ProgramState
  scenes : List SceneTree

/-- Embedding of `WebglManager.render` (utils.js lines 324-345): update
the clock, clear the canvas (a GL effect not relevant to ordering), then
traverse the scene forest with the queue loop; the returned list is the
order in which `display` fires. -/
def render (time : Int) (st : ManagerState) : ManagerState × List Nat :=
  let dt := time - st.prev_time
  let at' :=
    if st.programState.animate then st.programState.animationTime + dt
    else st.programState.animationTime
  ({ st with prev_time := time, programState := { st.programState with animationDeltaTime := dt, animationTime := at' } },
    displayOrder st.scenes)

/-- C8 counterexample: for the scene forest `[A (children: [B]), C]` the
display calls happen in the order A, C, B — not the claimed pre-order
A, B, C (the loop enqueues children at the back of the list). -/
theorem draw_order_cex :
    displayOrder [SceneTree.node 0 [SceneTree.node 1 []], SceneTree.node 2 []] =
      [0, 2, 1] ∧
    ([0, 2, 1] : List Nat) ≠ [0, 1, 2] := by
  constructor
  · simp [displayOrder]
  · decide

/-- C8 (amended): within every render-loop tick the traversal visits and
displays nodes in the same fixed breadth-first queue order — the head
node is displayed and its children are enqueued at the back — so for the
scene forest `[A (children: [B]), C]` the display order is A, C, B on
every tick, identical across ticks regardless of frame timing and of the
clock state. -/
theorem draw_order_amended (t1 t2 : Int) (s1 s2 : ManagerState)
    (h : s1.scenes = s2.scenes) :
    (render t1 s1).2 = (render t2 s2).2 ∧
    (∀ l cs rest, displayOrder (SceneTree.node l cs :: rest) =
      l :: displayOrder (rest ++ cs)) ∧
    (render t1 { s1 with
        scenes := [SceneTree.node 0 [SceneTree.node 1 []], SceneTree.node 2 []] }).2 =
      [0, 2, 1] := by
  refine ⟨?_, displayOrder_cons, ?_⟩
  · simp only [render]
    rw [h]
  · simp only [render]
    simp [displayOrder]

def forestEx : List SceneTree :=
  [SceneTree.node 0 [SceneTree.node 1 []], SceneTree.node 2 []]

def psEx1 : ProgramState := { animationTime := 0, animationDeltaTime := 0, animate := true }

def psEx2 : ProgramState := { animationTime := 9, animationDeltaTime := 1, animate := false }

def mgrEx1 : ManagerState := { prev_time := 0, programState := psEx1, scenes := forestEx }

def mgrEx2 : ManagerState := { prev_time := 55, programState := psEx2, scenes := forestEx }

/-- C8 amended claim instantiated at two different tick times and clock
states over the example forest. -/
theorem draw_order_amended_witness :
    mgrEx1.scenes = mgrEx2.scenes ∧
    (render 16 mgrEx1).2 = (render 99 mgrEx2).2 ∧
    (render 16 { mgrEx1 with scenes := forestEx }).2 = [0, 2, 1] := by
  have h := draw_order_amended 16 99 mgrEx1 mgrEx2 rfl
  exact ⟨rfl, h.1, h.2.2⟩

end TinyGraphics
